import Mathlib

/-!
Verification of the dot_vox MagicaVoxel `.vox` decoder/encoder.

This file gives a shallow embedding of the library's parser (`src/parser.rs`,
`src/scene.rs`, `src/model.rs`, `src/palette.rs`, `src/types.rs`), of the
chunk-to-aggregate mapper, and of the writer (`src/dot_vox_data.rs`), and
proves or refutes the specification's claims about them.

Bytes are modelled as `Fin 256` (Rust `u8`); byte buffers as `List Byte`.
`nom` parsers become functions `Bytes → Except NomErr (Bytes × α)`, where
`NomErr` distinguishes recoverable errors (`nom::Err::Error`) from fatal ones
(`nom::Err::Failure`), since the two propagate differently through
`many0`/`count`.  The recursive chunk parser is defined with an explicit fuel
argument (structural recursion), with fuel-irrelevance lemmas showing the
canonical instantiation never exhausts it.
-/

namespace DotVox

/-- A Rust `u8`. -/
abbrev Byte := Fin 256

/-- A Rust byte slice `&[u8]`. -/
abbrev Bytes := List Byte

/-- The two flavours of `nom` error: recoverable `Error` and fatal `Failure`. -/
inductive NomErr where
  | err  : NomErr
  | fail : NomErr
deriving DecidableEq, Repr

/-- Result of a `nom` parser: remaining input plus value, or an error. -/
abbrev PResult (α : Type) := Except NomErr (Bytes × α)

/-- `nom::bytes::complete::take(n)`: split off `n` bytes or fail recoverably. -/
def takeP (n : Nat) (i : Bytes) : PResult Bytes :=
  if n ≤ i.length then .ok (i.drop n, i.take n) else .error .err

/-- `nom::number::complete::le_u8`. -/
def le_u8 : Bytes → PResult Byte
  | b :: rest => .ok (rest, b)
  | _ => .error .err

/-- `nom::number::complete::le_u32`: four little-endian bytes as a `Nat < 2^32`. -/
def le_u32 : Bytes → PResult Nat
  | b0 :: b1 :: b2 :: b3 :: rest =>
      .ok (rest, b0.val + 256 * b1.val + 65536 * b2.val + 16777216 * b3.val)
  | _ => .error .err

/-- `nom::number::complete::le_i32`, used only for ignored fields; we keep the
raw 4 bytes and discard them, exactly as the callers do. -/
def le_i32_ignored : Bytes → PResult Unit
  | _ :: _ :: _ :: _ :: rest => .ok (rest, ())
  | _ => .error .err

/-- Rust `String`s are byte sequences that passed `str::from_utf8`. -/
abbrev RString := List Byte

/-- UTF-8 validity of a byte sequence, as checked by `str::from_utf8`. -/
def isValidUtf8 : List Byte → Bool
  | [] => true
  | b0 :: rest =>
    if b0.val < 0x80 then isValidUtf8 rest
    else if 0xC2 ≤ b0.val ∧ b0.val ≤ 0xDF then
      match rest with
      | b1 :: rest2 => (0x80 ≤ b1.val ∧ b1.val ≤ 0xBF) && isValidUtf8 rest2
      | _ => false
    else if b0.val = 0xE0 then
      match rest with
      | b1 :: b2 :: rest3 =>
          (0xA0 ≤ b1.val ∧ b1.val ≤ 0xBF) && (0x80 ≤ b2.val ∧ b2.val ≤ 0xBF)
            && isValidUtf8 rest3
      | _ => false
    else if (0xE1 ≤ b0.val ∧ b0.val ≤ 0xEC) ∨ b0.val = 0xEE ∨ b0.val = 0xEF then
      match rest with
      | b1 :: b2 :: rest3 =>
          (0x80 ≤ b1.val ∧ b1.val ≤ 0xBF) && (0x80 ≤ b2.val ∧ b2.val ≤ 0xBF)
            && isValidUtf8 rest3
      | _ => false
    else if b0.val = 0xED then
      match rest with
      | b1 :: b2 :: rest3 =>
          (0x80 ≤ b1.val ∧ b1.val ≤ 0x9F) && (0x80 ≤ b2.val ∧ b2.val ≤ 0xBF)
            && isValidUtf8 rest3
      | _ => false
    else if b0.val = 0xF0 then
      match rest with
      | b1 :: b2 :: b3 :: rest4 =>
          (0x90 ≤ b1.val ∧ b1.val ≤ 0xBF) && (0x80 ≤ b2.val ∧ b2.val ≤ 0xBF)
            && (0x80 ≤ b3.val ∧ b3.val ≤ 0xBF) && isValidUtf8 rest4
      | _ => false
    else if 0xF1 ≤ b0.val ∧ b0.val ≤ 0xF3 then
      match rest with
      | b1 :: b2 :: b3 :: rest4 =>
          (0x80 ≤ b1.val ∧ b1.val ≤ 0xBF) && (0x80 ≤ b2.val ∧ b2.val ≤ 0xBF)
            && (0x80 ≤ b3.val ∧ b3.val ≤ 0xBF) && isValidUtf8 rest4
      | _ => false
    else if b0.val = 0xF4 then
      match rest with
      | b1 :: b2 :: b3 :: rest4 =>
          (0x80 ≤ b1.val ∧ b1.val ≤ 0x8F) && (0x80 ≤ b2.val ∧ b2.val ≤ 0xBF)
            && (0x80 ≤ b3.val ∧ b3.val ≤ 0xBF) && isValidUtf8 rest4
      | _ => false
    else false

/-- `to_str` in `parser.rs`: UTF-8-validate and own the bytes. -/
def to_str (i : List Byte) : Except Unit RString :=
  if isValidUtf8 i then .ok i else .error ()

/-- General dictionary (`pub type Dict = HashMap<String, String>` in
`parser.rs`), modelled as an association list with map semantics: `dictInsert`
replaces the value of an existing key in place and appends fresh keys, so keys
are always unique. -/
abbrev Dict := List (RString × RString)

/-- `HashMap::insert`: overwrite the value under an existing key, otherwise add
the entry. -/
def dictInsert (d : Dict) (k v : RString) : Dict :=
  if d.any (fun e => e.1 = k) then
    d.map (fun e => if e.1 = k then (k, v) else e)
  else d ++ [(k, v)]

/-- `HashMap::get`. -/
def dictGet (d : Dict) (k : RString) : Option RString :=
  (d.find? (fun e => e.1 = k)).map (fun e => e.2)

/-! ## Data model (`model.rs`, `palette.rs`, `scene.rs`, `parser.rs`) -/

/-- The dimensions of a model in voxels (`Size` in `model.rs`; fields are `u32`). -/
structure Size where
  x : Nat
  y : Nat
  z : Nat
deriving DecidableEq, Repr

/-- A voxel (`Voxel` in `model.rs`; all fields `u8`). -/
structure Voxel where
  x : Byte
  y : Byte
  z : Byte
  i : Byte
deriving DecidableEq, Repr

/-- A renderable voxel model (`Model` in `model.rs`). -/
structure Model where
  size : Size
  voxels : List Voxel
deriving DecidableEq, Repr

/-- An RGBA color (`Color` in `palette.rs`). -/
structure Color where
  r : Byte
  g : Byte
  b : Byte
  a : Byte
deriving DecidableEq, Repr

/-- A material (`Material` in `parser.rs`; `id` is `u32`). -/
structure Material where
  id : Nat
  properties : Dict
deriving DecidableEq, Repr

/-- Node header (`NodeHeader` in `scene.rs`). -/
structure NodeHeader where
  id : Nat
  attributes : Dict
deriving DecidableEq, Repr

/-- A model reference in a shape node (`ShapeModel` in `scene.rs`). -/
structure ShapeModel where
  model_id : Nat
  attributes : Dict
deriving DecidableEq, Repr

/-- Transform node (`SceneTransform` in `scene.rs`). -/
structure SceneTransform where
  header : NodeHeader
  child : Nat
  layer_id : Nat
  frames : List Dict
deriving DecidableEq, Repr

/-- Group node (`SceneGroup` in `scene.rs`). -/
structure SceneGroup where
  header : NodeHeader
  children : List Nat
deriving DecidableEq, Repr

/-- Shape node (`SceneShape` in `scene.rs`). -/
structure SceneShape where
  header : NodeHeader
  models : List ShapeModel
deriving DecidableEq, Repr

/-- Raw layer (`RawLayer` in `scene.rs`). -/
structure RawLayer where
  id : Nat
  attributes : Dict
deriving DecidableEq, Repr

/-- Layer (`Layer` in `scene.rs`). -/
structure Layer where
  attributes : Dict
deriving DecidableEq, Repr

/-- A keyframe of a transform node (`Frame` in `scene.rs`): a raw attribute
dictionary, parsed lazily by the accessors below. -/
structure Frame where
  attributes : Dict
deriving DecidableEq, Repr

/-- Scene graph node (`SceneNode` in `scene.rs`). -/
inductive SceneNode where
  | transform (attributes : Dict) (frames : List Frame) (child : Nat) (layer_id : Nat)
  | group (attributes : Dict) (children : List Nat)
  | shape (attributes : Dict) (models : List ShapeModel)
deriving DecidableEq, Repr

/-- Container for `.vox` file data (`DotVoxData` in `dot_vox_data.rs`). -/
structure DotVoxData where
  version : Nat
  models : List Model
  palette : List Color
  materials : List Material
  scenes : List SceneNode
  layers : List Layer
deriving DecidableEq, Repr

/-- Decoder-internal chunk tree (`Chunk` in `parser.rs`).  The `unknown` id is
kept as the raw 4 id bytes (the source stores the `&str`). -/
inductive Chunk where
  | main (children : List Chunk)
  | size (s : Size)
  | voxels (vs : List Voxel)
  | palette (cs : List Color)
  | material (m : Material)
  | transformNode (t : SceneTransform)
  | groupNode (g : SceneGroup)
  | shapeNode (s : SceneShape)
  | layer (l : RawLayer)
  | unknown (id : RString)
  | invalid (raw : Bytes)

/-! ## Rotation algebra (`types.rs`) -/

/-- A signed permutation matrix packed in one byte (`Rotation` in `types.rs`). -/
structure Rotation where
  byte : Byte
deriving DecidableEq, Repr

/-- Marker for a Rust panic (an `assert!` failing). -/
inductive Panic where
  | panic : Panic
deriving DecidableEq, Repr

/-- `Rotation::from_byte`: `assert!`s that the two explicit row indices differ
and neither is 3; the assert is modelled as an explicit `Panic` outcome. -/
def Rotation.from_byte (b : Byte) : Except Panic Rotation :=
  let index_nz1 := b.val &&& 0b11
  let index_nz2 := (b.val >>> 2) &&& 0b11
  if index_nz1 ≠ index_nz2 ∧ index_nz1 ≠ 0b11 ∧ index_nz2 ≠ 0b11 then
    .ok ⟨b⟩
  else .error .panic

/-- The 48 valid rotation-byte encodings: 7 significant bits, the two explicit
row indices distinct and neither the sentinel 3 (6 permutation classes × 8
sign patterns). -/
def isValidRotByte (b : Byte) : Bool :=
  decide (b.val < 128) &&
    (let i1 := b.val &&& 0b11
     let i2 := (b.val >>> 2) &&& 0b11
     decide (i1 ≠ i2 ∧ i1 ≠ 3 ∧ i2 ≠ 3))

/-- Column index of the nonzero entry of row `r` (`index_nz1`/`index_nz2` and
the deduced `index_nz3 = 3 - index_nz1 - index_nz2` of `to_cols_array_2d`). -/
def Rotation.rowIndex (rot : Rotation) (r : Nat) : Nat :=
  let i1 := rot.byte.val &&& 0b11
  let i2 := (rot.byte.val >>> 2) &&& 0b11
  if r = 0 then i1 else if r = 1 then i2 else 3 - i1 - i2

/-- Sign of row `r` (`row_1_sign`/`row_2_sign`/`row_3_sign` of
`to_cols_array_2d`): `+1` when sign bit `4 + r` is clear, `-1` when set. -/
def Rotation.rowSign (rot : Rotation) (r : Nat) : Int :=
  if rot.byte.val &&& (1 <<< (4 + r)) = 0 then 1 else -1

/-- Entry at row `r`, column `c` of the dense expansion `to_cols_array_2d`
(the source fills a col-major `[[f32; 3]; 3]` with `cols[rowIndex r][r] =
rowSign r` and zeros elsewhere; entries are exact `-1/0/+1`, modelled as
`Int`). -/
def Rotation.denseEntry (rot : Rotation) (r c : Nat) : Int :=
  if c = rot.rowIndex r then rot.rowSign r else 0

/-- The dense 3×3 expansion as row-major lists. -/
def Rotation.to_cols_array_2d (rot : Rotation) : List (List Int) :=
  [[rot.denseEntry 0 0, rot.denseEntry 0 1, rot.denseEntry 0 2],
   [rot.denseEntry 1 0, rot.denseEntry 1 1, rot.denseEntry 1 2],
   [rot.denseEntry 2 0, rot.denseEntry 2 1, rot.denseEntry 2 2]]

/-- 3×3 matrix product over the row-major dense expansion (empty on a shape
mismatch, which never arises for dense expansions). -/
def matMul3 (a b : List (List Int)) : List (List Int) :=
  match a, b with
  | [[a00,a01,a02],[a10,a11,a12],[a20,a21,a22]],
    [[b00,b01,b02],[b10,b11,b12],[b20,b21,b22]] =>
    [[a00*b00+a01*b10+a02*b20, a00*b01+a01*b11+a02*b21, a00*b02+a01*b12+a02*b22],
     [a10*b00+a11*b10+a12*b20, a10*b01+a11*b11+a12*b21, a10*b02+a11*b12+a12*b22],
     [a20*b00+a21*b10+a22*b20, a20*b01+a21*b11+a22*b21, a20*b02+a21*b12+a22*b22]]
  | _, _ => []

/-- Integer-only composition of two rotations (`impl Mul for Rotation` in
`types.rs`), bit for bit. -/
def Rotation.mul (lhs rhs : Rotation) : Rotation :=
  let rhs_row0 := rhs.byte.val &&& 0b11
  let rhs_row1 := (rhs.byte.val >>> 2) &&& 0b11
  let rhs_row2 := 3 - rhs_row0 - rhs_row1
  let rhs_rows := fun (k : Nat) => if k = 0 then rhs_row0 else if k = 1 then rhs_row1 else rhs_row2
  let lhs_row0 := lhs.byte.val &&& 0b11
  let lhs_row1 := (lhs.byte.val >>> 2) &&& 0b11
  let lhs_row2 := 3 - lhs_row0 - lhs_row1
  let lhs_signs := lhs.byte.val >>> 4
  let result_row_0 := rhs_rows lhs_row0
  let result_row_1 := rhs_rows lhs_row1
  let rhs_signs := rhs.byte.val >>> 4
  let rhs_signs_0 := (rhs_signs >>> lhs_row0) &&& 1
  let rhs_signs_1 := (rhs_signs >>> lhs_row1) &&& 1
  let rhs_signs_2 := (rhs_signs >>> lhs_row2) &&& 1
  let rhs_signs_permutated := rhs_signs_0 ||| (rhs_signs_1 <<< 1) ||| (rhs_signs_2 <<< 2)
  let signs := lhs_signs ^^^ rhs_signs_permutated
  ⟨⟨(result_row_0 ||| (result_row_1 <<< 2) ||| (signs <<< 4)) % 256, Nat.mod_lt _ (by decide)⟩⟩

/-! ## Leaf parsers (`model.rs`, `palette.rs`, `parser.rs`, `scene.rs`) -/

/-- Sequencing of `nom` parsers: pass the remaining input and the value on,
short-circuiting on error. -/
def pbind {α β : Type} (r : PResult α) (f : Bytes → α → PResult β) : PResult β :=
  match r with
  | .error e => .error e
  | .ok (i, a) => f i a

/-- `nom::multi::count(p, n)` (also `fold_many_m_n(n, n, p, ..)` with both
bounds equal): run `p` exactly `n` times, propagating its error. -/
def repeatP {α : Type} (p : Bytes → PResult α) : Nat → Bytes → PResult (List α)
  | 0, i => .ok (i, [])
  | n + 1, i =>
    pbind (p i) fun i a =>
    pbind (repeatP p n i) fun i as =>
    .ok (i, a :: as)

/-- `parse_color` in `palette.rs`: four `le_u8`s. -/
def parse_color (input : Bytes) : PResult Color :=
  pbind (le_u8 input) fun input r =>
  pbind (le_u8 input) fun input g =>
  pbind (le_u8 input) fun input b =>
  pbind (le_u8 input) fun input a =>
  .ok (input, { r, g, b, a })

/-- `many0(parse_color)`: greedily parse 4-byte colors, stopping before a
tail shorter than one color. -/
def many0_colors : Bytes → Bytes × List Color
  | b0 :: b1 :: b2 :: b3 :: rest =>
      ((many0_colors rest).1,
        { r := b0, g := b1, b := b2, a := b3 } :: (many0_colors rest).2)
  | i => (i, [])

/-- `extract_palette` in `palette.rs`: `all_consuming(many0(parse_color))`. -/
def extract_palette (i : Bytes) : PResult (List Color) :=
  if (many0_colors i).1 = [] then .ok ([], (many0_colors i).2) else .error .err

/-- Modelled from the spec: the built-in default palette constant
(`DEFAULT_PALETTE` in `palette.rs`).  Its backing resource file
`src/resources/default_palette.bytes` is not part of the given sources; the
spec fixes only that it is a 256-entry color table, so an arbitrary concrete
256-entry table stands in for the actual values. -/
def DEFAULT_PALETTE : List Color :=
  (List.range 256).map fun n =>
    { r := ⟨n % 256, Nat.mod_lt _ (by decide)⟩
      g := ⟨n % 256, Nat.mod_lt _ (by decide)⟩
      b := ⟨n % 256, Nat.mod_lt _ (by decide)⟩
      a := 255 }

/-- `parse_size` in `model.rs`: three `le_u32`s. -/
def parse_size (i : Bytes) : PResult Size :=
  pbind (le_u32 i) fun i x =>
  pbind (le_u32 i) fun i y =>
  pbind (le_u32 i) fun i z =>
  .ok (i, { x, y, z })

/-- `parse_voxel` in `model.rs`: four `le_u8`s, the color index shifted down
by one with `u8::saturating_sub` (`Fin` value arithmetic: `Nat` subtraction
is itself saturating). -/
def parse_voxel (input : Bytes) : PResult Voxel :=
  pbind (le_u8 input) fun input x =>
  pbind (le_u8 input) fun input y =>
  pbind (le_u8 input) fun input z =>
  pbind (le_u8 input) fun input i =>
  .ok (input, { x, y, z, i := ⟨i.val - 1, lt_of_le_of_lt (Nat.sub_le _ _) i.isLt⟩ })

/-- `parse_voxels` in `model.rs`: `le_u32` count, then `count(parse_voxel, n)`.
The count is NOT passed through `validate_count`. -/
def parse_voxels (i : Bytes) : PResult (List Voxel) :=
  pbind (le_u32 i) fun i n =>
  repeatP parse_voxel n i

/-- `parse_string` in `parser.rs`: `le_u32` length, `take`, `map_res(.., to_str)`
(a UTF-8 failure is a recoverable `map_res` error). -/
def parse_string (i : Bytes) : PResult RString :=
  pbind (le_u32 i) fun i n =>
  pbind (takeP n i) fun i bytes =>
  match to_str bytes with
  | .ok s => .ok (i, s)
  | .error _ => .error .err

/-- `parse_dict_entry` in `parser.rs`. -/
def parse_dict_entry (i : Bytes) : PResult (RString × RString) :=
  pbind (parse_string i) fun i key =>
  pbind (parse_string i) fun i value =>
  .ok (i, (key, value))

/-- `validate_count` in `parser.rs`: reject (with `nom::Err::Failure`) any
declared count exceeding `remaining bytes / minimum_object_size`, before any
capacity is allocated from it. -/
def validate_count (i : Bytes) (count : Nat) (minimum_object_size : Nat) :
    Except NomErr Nat :=
  if count > i.length / minimum_object_size then .error .fail else .ok count

/-- `parse_dict` in `parser.rs`: `le_u32` entry count, `validate_count` with
minimum entry size `2 * size_of::<u32>() = 8`, then
`fold_many_m_n(n, n, parse_dict_entry, Dict::with_capacity(n), insert)`. -/
def parse_dict (i : Bytes) : PResult Dict :=
  pbind (le_u32 i) fun i n =>
  match validate_count i n 8 with
  | .error e => .error e
  | .ok n =>
    pbind (repeatP parse_dict_entry n i) fun i entries =>
    .ok (i, entries.foldl (fun map e => dictInsert map e.1 e.2) [])

/-- `parse_material` in `parser.rs`. -/
def parse_material (i : Bytes) : PResult Material :=
  pbind (le_u32 i) fun i id =>
  pbind (parse_dict i) fun i properties =>
  .ok (i, { id, properties })

/-- `parse_node_header` in `scene.rs`. -/
def parse_node_header (i : Bytes) : PResult NodeHeader :=
  pbind (le_u32 i) fun i id =>
  pbind (parse_dict i) fun i attributes =>
  .ok (i, { id, attributes })

/-- `parse_scene_shape_model` in `scene.rs`. -/
def parse_scene_shape_model (i : Bytes) : PResult ShapeModel :=
  pbind (le_u32 i) fun i model_id =>
  pbind (parse_dict i) fun i attributes =>
  .ok (i, { model_id, attributes })

/-- `parse_scene_transform` in `scene.rs`: header, child, ignored i32,
layer id, then `count(parse_dict, frame_count)` — the frame count is NOT
passed through `validate_count`. -/
def parse_scene_transform (i : Bytes) : PResult SceneTransform :=
  pbind (parse_node_header i) fun i header =>
  pbind (le_u32 i) fun i child =>
  pbind (le_i32_ignored i) fun i _ignored =>
  pbind (le_u32 i) fun i layer_id =>
  pbind (le_u32 i) fun i frame_count =>
  pbind (repeatP parse_dict frame_count i) fun i frames =>
  .ok (i, { header, child, layer_id, frames })

/-- `parse_scene_group` in `scene.rs`: header, then `count(le_u32, child_count)`
— the child count is NOT passed through `validate_count`. -/
def parse_scene_group (i : Bytes) : PResult SceneGroup :=
  pbind (parse_node_header i) fun i header =>
  pbind (le_u32 i) fun i child_count =>
  pbind (repeatP le_u32 child_count i) fun i children =>
  .ok (i, { header, children })

/-- `parse_scene_shape` in `scene.rs`: header, then
`count(parse_scene_shape_model, model_count)` — the model count is NOT passed
through `validate_count`. -/
def parse_scene_shape (i : Bytes) : PResult SceneShape :=
  pbind (parse_node_header i) fun i header =>
  pbind (le_u32 i) fun i model_count =>
  pbind (repeatP parse_scene_shape_model model_count i) fun i models =>
  .ok (i, { header, models })

/-- `parse_layer` in `scene.rs`. -/
def parse_layer (i : Bytes) : PResult RawLayer :=
  pbind (le_u32 i) fun i id =>
  pbind (parse_dict i) fun i attributes =>
  pbind (le_u32 i) fun i _ignored =>
  .ok (i, { id, attributes })

/-! ## Chunk decoder (`parser.rs`) -/

/-- The chunk id strings of `build_chunk`, as their ASCII bytes. -/
def idSIZE : RString := [83, 73, 90, 69]

/-- `"XYZI"`. -/
def idXYZI : RString := [88, 89, 90, 73]

/-- `"RGBA"`. -/
def idRGBA : RString := [82, 71, 66, 65]

/-- `"MATL"`. -/
def idMATL : RString := [77, 65, 84, 76]

/-- `"nTRN"`. -/
def idnTRN : RString := [110, 84, 82, 78]

/-- `"nGRP"`. -/
def idnGRP : RString := [110, 71, 82, 80]

/-- `"nSHP"`. -/
def idnSHP : RString := [110, 83, 72, 80]

/-- `"LAYR"`. -/
def idLAYR : RString := [76, 65, 89, 82]

/-- `"MAIN"`. -/
def idMAIN : RString := [77, 65, 73, 78]

/-- `"VOX "` (`MAGIC_NUMBER` in `parser.rs`). -/
def MAGIC_NUMBER : RString := [86, 79, 88, 32]

/-- `build_material_chunk` in `parser.rs`. -/
def build_material_chunk (chunk_content : Bytes) : Chunk :=
  match parse_material chunk_content with
  | .ok (_, material) => .material material
  | _ => .invalid chunk_content

/-- `build_palette_chunk` in `parser.rs`. -/
def build_palette_chunk (chunk_content : Bytes) : Chunk :=
  match extract_palette chunk_content with
  | .ok (_, palette) => .palette palette
  | _ => .invalid chunk_content

/-- `build_size_chunk` in `parser.rs`. -/
def build_size_chunk (chunk_content : Bytes) : Chunk :=
  match parse_size chunk_content with
  | .ok (_, size) => .size size
  | _ => .invalid chunk_content

/-- `build_voxel_chunk` in `parser.rs`. -/
def build_voxel_chunk (chunk_content : Bytes) : Chunk :=
  match parse_voxels chunk_content with
  | .ok (_, voxels) => .voxels voxels
  | _ => .invalid chunk_content

/-- `build_scene_transform_chunk` in `parser.rs`. -/
def build_scene_transform_chunk (chunk_content : Bytes) : Chunk :=
  match parse_scene_transform chunk_content with
  | .ok (_, transform_node) => .transformNode transform_node
  | _ => .invalid chunk_content

/-- `build_scene_group_chunk` in `parser.rs`. -/
def build_scene_group_chunk (chunk_content : Bytes) : Chunk :=
  match parse_scene_group chunk_content with
  | .ok (_, group_node) => .groupNode group_node
  | _ => .invalid chunk_content

/-- `build_scene_shape_chunk` in `parser.rs`. -/
def build_scene_shape_chunk (chunk_content : Bytes) : Chunk :=
  match parse_scene_shape chunk_content with
  | .ok (_, shape_node) => .shapeNode shape_node
  | _ => .invalid chunk_content

/-- `build_layer_chunk` in `parser.rs`. -/
def build_layer_chunk (chunk_content : Bytes) : Chunk :=
  match parse_layer chunk_content with
  | .ok (_, layer) => .layer layer
  | _ => .invalid chunk_content

/-- The `children_size == 0` branch of `build_chunk` in `parser.rs`:
dispatch the content to the leaf parser named by the id; unknown ids become
`Chunk::Unknown`. -/
def build_leaf_chunk (id : RString) (chunk_content : Bytes) : Chunk :=
  if id = idSIZE then build_size_chunk chunk_content
  else if id = idXYZI then build_voxel_chunk chunk_content
  else if id = idRGBA then build_palette_chunk chunk_content
  else if id = idMATL then build_material_chunk chunk_content
  else if id = idnTRN then build_scene_transform_chunk chunk_content
  else if id = idnGRP then build_scene_group_chunk chunk_content
  else if id = idnSHP then build_scene_shape_chunk chunk_content
  else if id = idLAYR then build_layer_chunk chunk_content
  else .unknown id

/-- `nom::multi::many0` specialised to a chunk parser `p`: collect successes
until `p` fails recoverably (leftover bytes are not an error), propagate
`Failure`, and error out on an iteration that consumes nothing (nom's
infinite-loop guard; our chunk parser always consumes at least its 12 header
bytes, so that branch is unreachable for it).  The `fuel` bounds the loop and
is irrelevant once it exceeds the input length (`many0F_fuel` below). -/
def many0F (p : Bytes → PResult Chunk) : Nat → Bytes → PResult (List Chunk)
  | 0, _ => .error .err
  | fuel + 1, i =>
    match p i with
    | .error .err => .ok (i, [])
    | .error .fail => .error .fail
    | .ok (i1, c) =>
      if i1.length < i.length then
        match many0F p fuel i1 with
        | .error e => .error e
        | .ok (r, cs) => .ok (r, c :: cs)
      else .error .err

/-- The `children_size > 0` branch of `build_chunk` in `parser.rs`,
parameterised by the chunk parser used for the children (`parse_chunk` one
fuel step down): parse the child content with `many0`, treating a failure as
an empty child list; only a `"MAIN"` id yields `Chunk::Main`. -/
def build_parent_chunk (parseF : Bytes → PResult Chunk) (id : RString)
    (child_content : Bytes) : Chunk :=
  let child_chunks := match many0F parseF (child_content.length + 1) child_content with
    | .ok (_, result) => result
    | _ => []
  if id = idMAIN then .main child_chunks else .unknown id

/-- `parse_chunk` in `parser.rs`, with explicit fuel for the recursion
through `build_chunk`'s `many0(parse_chunk)` over the child content: a 4-byte
UTF-8 id (`map_res(take(4usize), str::from_utf8)`), two `le_u32` sizes, a
`take` of the content and one of the child content, then `build_chunk`.
The fuel is irrelevant once it exceeds the input length
(`parse_chunkF_fuel` below), so `parse_chunk` instantiates it with
`i.length + 1`. -/
def parse_chunkF : Nat → Bytes → PResult Chunk
  | 0, _ => .error .err
  | fuel + 1, i =>
    pbind (takeP 4 i) fun i1 idb =>
    -- `map_res(take(4usize), str::from_utf8)`: `to_str` inlined so the UTF-8
    -- test is a plain `if` (a failed conversion is a recoverable error)
    if isValidUtf8 idb then
      pbind (le_u32 i1) fun i2 content_size =>
      pbind (le_u32 i2) fun i3 children_size =>
      pbind (takeP content_size i3) fun i4 chunk_content =>
      pbind (takeP children_size i4) fun i5 child_content =>
      let chunk :=
        if children_size = 0 then build_leaf_chunk idb chunk_content
        else build_parent_chunk (fun j => parse_chunkF fuel j) idb child_content
      .ok (i5, chunk)
    else .error .err

/-- `parse_chunk` with its canonical (sufficient) fuel. -/
def parse_chunk (i : Bytes) : PResult Chunk :=
  parse_chunkF (i.length + 1) i

/-- The running aggregate of `map_chunk_to_data`'s fold over the `Main`
chunk's children (the source's mutable locals). -/
structure MapState where
  size_holder : Option Size
  models : List Model
  palette_holder : List Color
  materials : List Material
  scene : List SceneNode
  layers : List Layer

/-- One iteration of the `for chunk in children` loop of `map_chunk_to_data`
in `parser.rs`.  Note the `Voxels` arm: `if let Some(size) = size_holder`
copies the buffered size but does not clear `size_holder`. -/
def map_step (st : MapState) (chunk : Chunk) : MapState :=
  match chunk with
  | .size size => { st with size_holder := some size }
  | .voxels voxels =>
      match st.size_holder with
      | some size => { st with models := st.models ++ [{ size, voxels }] }
      | none => st
  | .palette palette => { st with palette_holder := palette }
  | .material material => { st with materials := st.materials ++ [material] }
  | .transformNode scene_transform =>
      { st with scene := st.scene ++
          [.transform scene_transform.header.attributes
            (scene_transform.frames.map Frame.mk)
            scene_transform.child scene_transform.layer_id] }
  | .groupNode scene_group =>
      { st with scene := st.scene ++
          [.group scene_group.header.attributes scene_group.children] }
  | .shapeNode scene_shape =>
      { st with scene := st.scene ++
          [.shape scene_shape.header.attributes scene_shape.models] }
  | .layer layer =>
      { st with layers := st.layers ++ [{ attributes := layer.attributes }] }
  | _ => st

/-- `map_chunk_to_data` in `parser.rs`. -/
def map_chunk_to_data (version : Nat) (main : Chunk) : DotVoxData :=
  match main with
  | .main children =>
    let st := children.foldl map_step
      { size_holder := none, models := [], palette_holder := DEFAULT_PALETTE,
        materials := [], scene := [], layers := [] }
    { version, models := st.models, palette := st.palette_holder,
      materials := st.materials, scenes := st.scene, layers := st.layers }
  | _ =>
    { version, models := [], palette := [], materials := [], scenes := [],
      layers := [] }

/-- `parse_vox_file` in `parser.rs`: the `"VOX "` magic tag, the `le_u32`
version, the single top-level chunk, then the chunk-tree fold. -/
def parse_vox_file (i : Bytes) : PResult DotVoxData :=
  pbind (takeP 4 i) fun i magic =>
  if magic = MAGIC_NUMBER then
    pbind (le_u32 i) fun i version =>
    pbind (parse_chunk i) fun i main =>
    .ok (i, map_chunk_to_data version main)
  else .error .err

/-- `load_bytes` in `lib.rs`. -/
def load_bytes (bytes : Bytes) : Except String DotVoxData :=
  match parse_vox_file bytes with
  | .ok (_, parsed) => .ok parsed
  | .error _ => .error "Not a valid MagicaVoxel .vox file"

/-! ## Frame attribute accessors (`scene.rs`) -/

/-- A translation (`Position` in `scene.rs`; fields are `i32`). -/
structure Position where
  x : Int
  y : Int
  z : Int
deriving DecidableEq, Repr

/-- The `"_t"` attribute key. -/
def key_t : RString := [95, 116]

/-- The `"_r"` attribute key. -/
def key_r : RString := [95, 114]

/-- The `"_f"` attribute key. -/
def key_f : RString := [95, 102]

/-- Split the longest leading run of ASCII digits off a string. -/
def decDigits : List Byte → List Nat × List Byte
  | b :: rest =>
      if 48 ≤ b.val ∧ b.val ≤ 57 then
        let (ds, r) := decDigits rest
        ((b.val - 48) :: ds, r)
      else ([], b :: rest)
  | [] => ([], [])

/-- `nom::character::complete::u8` over a string: at least one digit and a
value fitting `u8`, trailing input ignored by the accessors below. -/
def parse_dec_u8 (s : RString) : Option Byte :=
  match decDigits s with
  | ([], _) => none
  | (ds, _) =>
    let v := ds.foldl (fun acc d => acc * 10 + d) 0
    if h : v < 256 then some ⟨v, h⟩ else none

/-- `nom::character::complete::u32` over a string. -/
def parse_dec_u32 (s : RString) : Option Nat :=
  match decDigits s with
  | ([], _) => none
  | (ds, _) =>
    let v := ds.foldl (fun acc d => acc * 10 + d) 0
    if v < 4294967296 then some v else none

/-- `nom::character::complete::i32` over a string: optional `+`/`-` sign,
at least one digit, and a value within `i32` range; returns the rest. -/
def parse_dec_i32 (s : RString) : Option (Int × List Byte) :=
  let (neg, s1) :=
    match s with
    | b :: rest =>
        if b.val = 45 then (true, rest)
        else if b.val = 43 then (false, rest)
        else (false, b :: rest)
    | [] => (false, [])
  match decDigits s1 with
  | ([], _) => none
  | (ds, r) =>
    let v : Nat := ds.foldl (fun acc d => acc * 10 + d) 0
    if neg then
      if v ≤ 2147483648 then some (-(v : Int), r) else none
    else
      if v ≤ 2147483647 then some ((v : Int), r) else none

/-- `nom::character::complete::space1`: one or more spaces or tabs. -/
def parse_space1 : List Byte → Option (List Byte)
  | b :: rest =>
      if b.val = 32 ∨ b.val = 9 then
        some (match parse_space1 rest with
          | some r => r
          | none => rest)
      else none
  | [] => none

/-- `Frame::orientation` in `scene.rs`: look up `"_r"`, parse a decimal byte,
and hand it to `Rotation::from_byte` — whose `assert!` makes an invalid
encoding a `Panic`, not a `None`. -/
def Frame.orientation (f : Frame) : Except Panic (Option Rotation) :=
  match dictGet f.attributes key_r with
  | some value =>
    match parse_dec_u8 value with
    | some byte_rotation =>
      match Rotation.from_byte byte_rotation with
      | .ok rot => .ok (some rot)
      | .error p => .error p
    | none => .ok none
  | none => .ok none

/-- `Frame::position` in `scene.rs`: look up `"_t"` and parse
`i32, space1, i32, space1, i32`; any failure yields `None`. -/
def Frame.position (f : Frame) : Option Position :=
  match dictGet f.attributes key_t with
  | some value =>
    match parse_dec_i32 value with
    | some (x, r1) =>
      match parse_space1 r1 with
      | some r2 =>
        match parse_dec_i32 r2 with
        | some (y, r3) =>
          match parse_space1 r3 with
          | some r4 =>
            match parse_dec_i32 r4 with
            | some (z, _) => some { x, y, z }
            | none => none
          | none => none
        | none => none
      | none => none
    | none => none
  | none => none

/-- `Frame::frame_index` in `scene.rs`: look up `"_f"` and parse a decimal
`u32`; any failure yields `None`. -/
def Frame.frame_index (f : Frame) : Option Nat :=
  match dictGet f.attributes key_f with
  | some value => parse_dec_u32 value
  | none => none

/-! ## Writer (`dot_vox_data.rs`)

`write_vox` writes through `io::Write`; into the `Vec<u8>` buffers used here
that never fails, so the writers are modelled as pure byte-list producers. -/

/-- Truncate a `Nat` to a byte (Rust `as u8` / `u8` wrapping). -/
def byteOf (n : Nat) : Byte := ⟨n % 256, Nat.mod_lt _ (by decide)⟩

/-- `u32::to_le_bytes` (with Rust's `as u32` truncation built in). -/
def leBytes32 (n : Nat) : Bytes :=
  [byteOf n, byteOf (n / 256), byteOf (n / 65536), byteOf (n / 16777216)]

/-- `"PACK"`. -/
def idPACK : RString := [80, 65, 67, 75]

/-- `DotVoxData::write_chunk`: 4-byte id, content length, children length,
content bytes. -/
def write_chunk (id : RString) (chunk : Bytes) (num_children_bytes : Nat) : Bytes :=
  id ++ leBytes32 chunk.length ++ leBytes32 num_children_bytes ++ chunk

/-- `DotVoxData::write_leaf_chunk`. -/
def write_leaf_chunk (id : RString) (chunk : Bytes) : Bytes :=
  write_chunk id chunk 0

/-- `DotVoxData::write_string`. -/
def write_string (s : RString) : Bytes :=
  leBytes32 s.length ++ s

/-- `DotVoxData::write_dict`: entry count, then each key/value string. -/
def write_dict (dict : Dict) : Bytes :=
  leBytes32 dict.length ++
    (dict.map fun e => write_string e.1 ++ write_string e.2).flatten

/-- `Model::num_vox_bytes` in `model.rs`. -/
def Model.num_vox_bytes (m : Model) : Nat :=
  40 + 4 * m.voxels.length

/-- `DotVoxData::write_model`: a SIZE leaf and an XYZI leaf (1-based color
index restored with a wrapping `voxel.i + 1`). -/
def write_model (model : Model) : Bytes :=
  write_leaf_chunk idSIZE
    (leBytes32 model.size.x ++ leBytes32 model.size.y ++ leBytes32 model.size.z) ++
  write_leaf_chunk idXYZI
    (leBytes32 model.voxels.length ++
      (model.voxels.map fun v => [v.x, v.y, v.z, byteOf (v.i.val + 1)]).flatten)

/-- `DotVoxData::write_pack_chunk`: model count as content, and the models'
total encoded size declared as this chunk's children size. -/
def write_pack_chunk (data : DotVoxData) : Bytes :=
  write_chunk idPACK (leBytes32 data.models.length)
    ((data.models.map Model.num_vox_bytes).sum)

/-- `DotVoxData::write_models`: a PACK chunk first when there are at least two
models, then each model. -/
def write_models (data : DotVoxData) : Bytes :=
  (if data.models.length > 1 then write_pack_chunk data else []) ++
    (data.models.map write_model).flatten

/-- `DotVoxData::write_scene_node`, with `i` the node's position in `scenes`. -/
def write_scene_node (node : SceneNode) (i : Nat) : Bytes :=
  match node with
  | .group attributes children =>
      write_leaf_chunk idnGRP
        (leBytes32 i ++ write_dict attributes ++ leBytes32 children.length ++
          (children.map leBytes32).flatten)
  | .transform attributes frames child layer_id =>
      write_leaf_chunk idnTRN
        (leBytes32 i ++ write_dict attributes ++ leBytes32 child ++
          leBytes32 4294967295 ++ leBytes32 layer_id ++ leBytes32 frames.length ++
          (frames.map fun fr => write_dict fr.attributes).flatten)
  | .shape attributes models =>
      write_leaf_chunk idnSHP
        (leBytes32 i ++ write_dict attributes ++ leBytes32 models.length ++
          (models.map fun m => leBytes32 m.model_id ++ write_dict m.attributes).flatten)

/-- `DotVoxData::write_scene_graph`: every scene node, tagged with its index. -/
def write_scene_graph (data : DotVoxData) : Bytes :=
  (data.scenes.enum.map fun p => write_scene_node p.2 p.1).flatten

/-- `DotVoxData::write_palette_chunk`. -/
def write_palette_chunk (data : DotVoxData) : Bytes :=
  write_leaf_chunk idRGBA ((data.palette.map fun c => [c.r, c.g, c.b, c.a]).flatten)

/-- `DotVoxData::write_header`. -/
def write_header (data : DotVoxData) : Bytes :=
  MAGIC_NUMBER ++ leBytes32 data.version

/-- `DotVoxData::write_main_chunk`. -/
def write_main_chunk (num_children_bytes : Nat) : Bytes :=
  write_chunk idMAIN [] num_children_bytes

/-- `DotVoxData::write_vox`: header, then the MAIN chunk whose children buffer
holds the models, the scene graph, and the palette — materials and layers are
not written. -/
def write_vox (data : DotVoxData) : Bytes :=
  let children_buffer := write_models data ++ write_scene_graph data ++
    write_palette_chunk data
  write_header data ++ write_main_chunk children_buffer.length ++ children_buffer

/-! ## Basic parser lemmas -/

/-- The `u32` encoded by the first four bytes of a buffer (0 when shorter). -/
def leVal : Bytes → Nat
  | b0 :: b1 :: b2 :: b3 :: _ =>
      b0.val + 256 * b1.val + 65536 * b2.val + 16777216 * b3.val
  | _ => 0

theorem le_u32_of_length {j : Bytes} (h : 4 ≤ j.length) :
    le_u32 j = .ok (j.drop 4, leVal j) := by
  match j with
  | b0 :: b1 :: b2 :: b3 :: rest => rfl
  | [] | [_] | [_, _] | [_, _, _] => simp at h

theorem le_u32_err {j : Bytes} (h : j.length < 4) : le_u32 j = .error .err := by
  match j with
  | [] | [_] | [_, _] | [_, _, _] => rfl
  | b0 :: b1 :: b2 :: b3 :: rest => simp at h; omega

theorem leVal_lt (j : Bytes) : leVal j < 4294967296 := by
  match j with
  | b0 :: b1 :: b2 :: b3 :: rest =>
    simp only [leVal]
    have h0 := b0.isLt
    have h1 := b1.isLt
    have h2 := b2.isLt
    have h3 := b3.isLt
    omega
  | [] | [_] | [_, _] | [_, _, _] => simp [leVal]

theorem takeP_of_le {n : Nat} {i : Bytes} (h : n ≤ i.length) :
    takeP n i = .ok (i.drop n, i.take n) := by
  simp [takeP, h]

theorem takeP_err {n : Nat} {i : Bytes} (h : i.length < n) :
    takeP n i = .error .err := by
  simp [takeP]
  omega

theorem le_u32_ok_inv {j r : Bytes} {n : Nat} (h : le_u32 j = .ok (r, n)) :
    4 ≤ j.length ∧ r = j.drop 4 ∧ n = leVal j ∧ n < 4294967296 := by
  match j with
  | b0 :: b1 :: b2 :: b3 :: rest =>
    simp only [le_u32, Except.ok.injEq, Prod.mk.injEq] at h
    refine ⟨by simp, h.1.symm, ?_, ?_⟩
    · rw [← h.2]; rfl
    · rw [← h.2]
      have h0 := b0.isLt
      have h1 := b1.isLt
      have h2 := b2.isLt
      have h3 := b3.isLt
      omega
  | [] | [_] | [_, _] | [_, _, _] => simp [le_u32] at h

theorem takeP_ok_inv {n : Nat} {i r bs : Bytes} (h : takeP n i = .ok (r, bs)) :
    n ≤ i.length ∧ r = i.drop n ∧ bs = i.take n := by
  by_cases hn : n ≤ i.length
  · rw [takeP_of_le hn] at h
    simp only [Except.ok.injEq, Prod.mk.injEq] at h
    exact ⟨hn, h.1.symm, h.2.symm⟩
  · rw [takeP_err (by omega)] at h
    simp at h

theorem pbind_ok {α β : Type} {r : PResult α} {f : Bytes → α → PResult β}
    {i : Bytes} {a : α} (h : r = .ok (i, a)) : pbind r f = f i a := by
  rw [h]; rfl

theorem pbind_err {α β : Type} {r : PResult α} {f : Bytes → α → PResult β}
    {e : NomErr} (h : r = .error e) : pbind r f = .error e := by
  rw [h]; rfl

/-- The content size declared by a chunk header. -/
def headerContentSize (i : Bytes) : Nat := leVal (i.drop 4)

/-- The children size declared by a chunk header. -/
def headerChildrenSize (i : Bytes) : Nat := leVal (i.drop 8)

/-- Closed-form characterization of one step of `parse_chunk`: the header is
read and bounds-checked before any slicing, and on success the remaining
input is exactly the input minus the 12 header bytes and the declared
content and children bytes. -/
theorem parse_chunkF_eq (fuel : Nat) (i : Bytes) :
    parse_chunkF (fuel + 1) i =
      if 12 ≤ i.length then
        if isValidUtf8 (i.take 4) then
          if 12 + headerContentSize i + headerChildrenSize i ≤ i.length then
            .ok (i.drop (12 + headerContentSize i + headerChildrenSize i),
              if headerChildrenSize i = 0 then
                build_leaf_chunk (i.take 4) ((i.drop 12).take (headerContentSize i))
              else build_parent_chunk (fun j => parse_chunkF fuel j) (i.take 4)
                ((i.drop (12 + headerContentSize i)).take (headerChildrenSize i)))
          else .error .err
        else .error .err
      else .error .err := by
  show pbind (takeP 4 i) _ = _
  simp only [headerContentSize, headerChildrenSize]
  by_cases h4 : 4 ≤ i.length
  · rw [pbind_ok (takeP_of_le h4)]
    by_cases hu : isValidUtf8 (i.take 4)
    · rw [if_pos hu]
      by_cases h8 : 8 ≤ i.length
      · rw [pbind_ok (le_u32_of_length (by simp; omega : 4 ≤ (i.drop 4).length))]
        by_cases h12 : 12 ≤ i.length
        · rw [List.drop_drop]
          norm_num
          rw [pbind_ok (le_u32_of_length (by simp; omega : 4 ≤ (i.drop 8).length))]
          rw [List.drop_drop]
          norm_num
          by_cases hcs : leVal (i.drop 4) ≤ i.length - 12
          · rw [pbind_ok (takeP_of_le (by simp; omega :
              leVal (i.drop 4) ≤ (i.drop 12).length))]
            rw [List.drop_drop]
            by_cases hks : leVal (i.drop 8) ≤ i.length - 12 - leVal (i.drop 4)
            · rw [pbind_ok (takeP_of_le (by simp; omega :
                leVal (i.drop 8) ≤ (i.drop (12 + leVal (i.drop 4))).length))]
              rw [List.drop_drop]
              rw [if_pos hu, if_pos h12, if_pos (by omega :
                12 + leVal (i.drop 4) + leVal (i.drop 8) ≤ i.length)]
            · rw [pbind_err (takeP_err (by simp; omega))]
              rw [if_pos hu, if_pos h12, if_neg (by omega :
                ¬ 12 + leVal (i.drop 4) + leVal (i.drop 8) ≤ i.length)]
          · rw [pbind_err (takeP_err (by simp; omega))]
            rw [if_pos hu, if_pos h12, if_neg (by omega :
              ¬ 12 + leVal (i.drop 4) + leVal (i.drop 8) ≤ i.length)]
        · rw [pbind_err (le_u32_err (by simp; omega))]
          rw [if_neg h12]
      · rw [pbind_err (le_u32_err (by simp; omega))]
        rw [if_neg (by omega : ¬ 12 ≤ i.length)]
    · rw [if_neg hu]
      by_cases h12 : 12 ≤ i.length
      · rw [if_pos h12, if_neg hu]
      · rw [if_neg h12]
  · rw [pbind_err (takeP_err (by omega))]
    rw [if_neg (by omega : ¬ 12 ≤ i.length)]

/-- `parse_chunk` in closed form. -/
theorem parse_chunk_eq (i : Bytes) :
    parse_chunk i =
      if 12 ≤ i.length then
        if isValidUtf8 (i.take 4) then
          if 12 + headerContentSize i + headerChildrenSize i ≤ i.length then
            .ok (i.drop (12 + headerContentSize i + headerChildrenSize i),
              if headerChildrenSize i = 0 then
                build_leaf_chunk (i.take 4) ((i.drop 12).take (headerContentSize i))
              else build_parent_chunk (fun j => parse_chunkF i.length j) (i.take 4)
                ((i.drop (12 + headerContentSize i)).take (headerChildrenSize i)))
          else .error .err
        else .error .err
      else .error .err :=
  parse_chunkF_eq i.length i

/-! ## Claim theorems -/

/-- C9: every voxel parsed from an XYZI chunk carries the on-disk color index
byte minus one under saturating subtraction — on-disk 1 becomes 0, on-disk 0
also becomes 0 (`Nat` subtraction saturates exactly like
`u8::saturating_sub`), and the in-memory index is never 255, so the
subtraction never wraps. -/
theorem C9_voxel_index_saturating (x y z ind : Byte) (rest : Bytes) :
    ∃ v : Voxel, parse_voxel (x :: y :: z :: ind :: rest) = .ok (rest, v) ∧
      v.x = x ∧ v.y = y ∧ v.z = z ∧ v.i.val = ind.val - 1 ∧ v.i.val ≤ 254 := by
  refine ⟨_, rfl, rfl, rfl, rfl, rfl, ?_⟩
  have := ind.isLt
  simp only []
  omega

/-- The 48 valid rotation-byte encodings, listed. -/
def rotBytes48 : List Byte :=
  [1, 2, 4, 6, 8, 9, 17, 18, 20, 22, 24, 25, 33, 34, 36, 38, 40, 41,
   49, 50, 52, 54, 56, 57, 65, 66, 68, 70, 72, 73, 81, 82, 84, 86, 88, 89,
   97, 98, 100, 102, 104, 105, 113, 114, 116, 118, 120, 121]

set_option maxRecDepth 10000 in
set_option maxHeartbeats 2000000 in
theorem rot_pairs_ok : rotBytes48.all (fun a => rotBytes48.all (fun b =>
    isValidRotByte (Rotation.mul ⟨a⟩ ⟨b⟩).byte &&
    decide (Rotation.to_cols_array_2d (Rotation.mul ⟨a⟩ ⟨b⟩) =
      matMul3 (Rotation.to_cols_array_2d ⟨a⟩) (Rotation.to_cols_array_2d ⟨b⟩)))) = true := by
  decide

set_option maxRecDepth 10000 in
theorem rot_valid_mem : ∀ b : Byte, isValidRotByte b = true → b ∈ rotBytes48 := by
  decide

/-- C6: for any two of the 48 valid rotation-byte encodings, the integer-only
composition `Rotation::mul` yields a valid encoding (closure), and its dense
3×3 expansion equals the matrix product of the operands' dense expansions
over the exact `-1/0/+1` entries. -/
theorem C6_rotation_mul_closure_dense (a b : Byte)
    (ha : isValidRotByte a = true) (hb : isValidRotByte b = true) :
    isValidRotByte (Rotation.mul ⟨a⟩ ⟨b⟩).byte = true ∧
    Rotation.to_cols_array_2d (Rotation.mul ⟨a⟩ ⟨b⟩) =
      matMul3 (Rotation.to_cols_array_2d ⟨a⟩) (Rotation.to_cols_array_2d ⟨b⟩) := by
  have h1 := List.all_eq_true.mp rot_pairs_ok a (rot_valid_mem a ha)
  have h2 := List.all_eq_true.mp h1 b (rot_valid_mem b hb)
  rw [Bool.and_eq_true, decide_eq_true_iff] at h2
  exact h2

/-- Witness for C6 at the doc-comment example `105` and the identity `4`. -/
theorem C6_witness :
    isValidRotByte 105 = true ∧ isValidRotByte 4 = true ∧
      (isValidRotByte (Rotation.mul ⟨105⟩ ⟨4⟩).byte = true ∧
       Rotation.to_cols_array_2d (Rotation.mul ⟨105⟩ ⟨4⟩) =
         matMul3 (Rotation.to_cols_array_2d ⟨105⟩) (Rotation.to_cols_array_2d ⟨4⟩)) :=
  ⟨by decide, by decide,
    C6_rotation_mul_closure_dense 105 4 (by decide) (by decide)⟩

/-- C7: `parse_chunk` reads the 4-byte id and the two little-endian `u32`
size fields, and (a) whenever it succeeds, the declared 12 + content +
children bytes were within the input and the remainder is exactly the input
with them dropped — it never reads past the end — and (b) whenever fewer
bytes remain than declared, it fails with an error. -/
theorem C7_parse_chunk_bounds (i : Bytes) :
    (∀ rest c, parse_chunk i = .ok (rest, c) →
      12 + headerContentSize i + headerChildrenSize i ≤ i.length ∧
      rest = i.drop (12 + headerContentSize i + headerChildrenSize i)) ∧
    (12 ≤ i.length → isValidUtf8 (i.take 4) = true →
      i.length < 12 + headerContentSize i + headerChildrenSize i →
      parse_chunk i = .error .err) := by
  rw [parse_chunk_eq]
  constructor
  · intro rest c h
    by_cases h12 : 12 ≤ i.length
    · rw [if_pos h12] at h
      by_cases hu : isValidUtf8 (i.take 4)
      · rw [if_pos hu] at h
        by_cases hb : 12 + headerContentSize i + headerChildrenSize i ≤ i.length
        · rw [if_pos hb] at h
          simp only [Except.ok.injEq, Prod.mk.injEq] at h
          exact ⟨hb, h.1.symm⟩
        · rw [if_neg hb] at h; simp at h
      · rw [if_neg hu] at h; simp at h
    · rw [if_neg h12] at h; simp at h
  · intro h12 hu hlt
    rw [if_pos h12, if_pos hu, if_neg (by omega)]

/-- Witness for C7: a truncated SIZE chunk header declaring 12 content bytes
with none behind it fails, and the success branch is exercised on an intact
one. -/
theorem C7_witness :
    (12 ≤ ([83,73,90,69, 12,0,0,0, 0,0,0,0] : Bytes).length ∧
      isValidUtf8 (([83,73,90,69, 12,0,0,0, 0,0,0,0] : Bytes).take 4) = true ∧
      parse_chunk [83,73,90,69, 12,0,0,0, 0,0,0,0] = .error .err) ∧
    (12 + headerContentSize [83,73,90,69, 0,0,0,0, 0,0,0,0] +
        headerChildrenSize [83,73,90,69, 0,0,0,0, 0,0,0,0] ≤ 12 ∧
      ([] : Bytes) = ([83,73,90,69, 0,0,0,0, 0,0,0,0] : Bytes).drop 12) :=
  ⟨⟨by decide, by decide,
    (C7_parse_chunk_bounds [83,73,90,69, 12,0,0,0, 0,0,0,0]).2
      (by decide) (by decide) (by decide)⟩,
   (C7_parse_chunk_bounds [83,73,90,69, 0,0,0,0, 0,0,0,0]).1 []
      (.invalid []) (by rfl)⟩

/-! ## Dictionary lemmas -/

theorem dictGet_nil (k : RString) : dictGet [] k = none := rfl

theorem dictGet_cons (e : RString × RString) (tl : Dict) (k : RString) :
    dictGet (e :: tl) k = if e.1 = k then some e.2 else dictGet tl k := by
  by_cases h : e.1 = k
  · simp [dictGet, List.find?_cons_of_pos, h]
  · simp [dictGet, List.find?_cons_of_neg, h]

theorem dictGet_map_update (d : Dict) (k v k' : RString) :
    dictGet (d.map (fun e => if e.1 = k then (k, v) else e)) k' =
      if k' = k then (if d.any (fun e => e.1 = k) then some v else none)
      else dictGet d k' := by
  induction d with
  | nil => by_cases h : k' = k <;> simp [dictGet, h]
  | cons e tl ih =>
    simp only [List.map_cons, List.any_cons]
    by_cases hk : k' = k
    · subst hk
      by_cases he : e.1 = k'
      · simp [dictGet_cons, he]
      · rw [if_neg he, dictGet_cons, if_neg he, ih, if_pos rfl, if_pos rfl]
        simp only [decide_eq_false he, Bool.false_or]
    · by_cases he : e.1 = k
      · have h1 : ¬ (k = k') := fun hh => hk hh.symm
        have h2 : ¬ (e.1 = k') := fun hh => hk (he.symm.trans hh).symm
        simp [dictGet_cons, he, h1, h2, ih, hk]
      · by_cases hpe : e.1 = k'
        · simp [dictGet_cons, he, hpe, hk]
        · simp [dictGet_cons, he, hpe, ih, hk]

theorem dictGet_insert (d : Dict) (k v k' : RString) :
    dictGet (dictInsert d k v) k' = if k' = k then some v else dictGet d k' := by
  rw [dictInsert]
  by_cases hany : d.any (fun e => e.1 = k)
  · rw [if_pos hany, dictGet_map_update, if_pos hany]
  · rw [if_neg hany]
    rw [List.any_eq_true] at hany
    push_neg at hany
    induction d with
    | nil =>
      rw [List.nil_append, dictGet_cons, dictGet_nil]
      by_cases h : k' = k
      · subst h; simp
      · rw [if_neg (fun hh : k = k' => h hh.symm), if_neg h]
    | cons e tl ih =>
      rw [List.cons_append, dictGet_cons, dictGet_cons]
      by_cases hpe : e.1 = k'
      · rw [if_pos hpe, if_pos hpe]
        have : ¬ k' = k := by
          intro hh
          exact absurd (by simp [hpe, hh] : (e.1 = k)) (by simpa using hany e (by simp))
        rw [if_neg this]
      · rw [if_neg hpe, if_neg hpe,
          ih (fun x hx => hany x (List.mem_cons_of_mem e hx))]

theorem any_map_update (d : Dict) (k v k' : RString) :
    (d.map (fun e => if e.1 = k then (k, v) else e)).any (fun e => e.1 = k') =
      d.any (fun e => e.1 = k') := by
  induction d with
  | nil => rfl
  | cons e tl ih =>
    simp only [List.map_cons, List.any_cons, ih]
    by_cases he : e.1 = k
    · simp [he]
    · simp [he]

theorem dictInsert_any (d : Dict) (k v k' : RString) :
    (dictInsert d k v).any (fun e => e.1 = k') =
      (d.any (fun e => e.1 = k') || decide (k = k')) := by
  rw [dictInsert]
  by_cases hany : d.any (fun e => e.1 = k)
  · rw [if_pos hany, any_map_update]
    by_cases hk : k = k'
    · subst hk
      simp [hany]
    · simp [hk]
  · rw [if_neg hany]
    simp

theorem dictInsert_length (d : Dict) (k v : RString) :
    (dictInsert d k v).length =
      if d.any (fun e => e.1 = k) then d.length else d.length + 1 := by
  by_cases h : d.any (fun e => e.1 = k) <;> simp [dictInsert, h]

theorem keys_map_update (d : Dict) (k v : RString) :
    (d.map (fun e => if e.1 = k then (k, v) else e)).map Prod.fst = d.map Prod.fst := by
  induction d with
  | nil => rfl
  | cons e tl ih =>
    simp only [List.map_cons, ih]
    by_cases he : e.1 = k <;> simp [he]

theorem dictInsert_keys_nodup (d : Dict) (k v : RString)
    (h : (d.map Prod.fst).Nodup) : ((dictInsert d k v).map Prod.fst).Nodup := by
  rw [dictInsert]
  by_cases hany : d.any (fun e => e.1 = k)
  · rw [if_pos hany, keys_map_update]; exact h
  · rw [if_neg hany]
    rw [List.any_eq_true] at hany
    push_neg at hany
    simp only [List.map_append, List.map_cons, List.map_nil]
    rw [List.nodup_append]
    refine ⟨h, List.nodup_singleton k, ?_⟩
    intro a ha hb
    simp only [List.mem_singleton] at hb
    subst hb
    obtain ⟨e, he, hfst⟩ := List.mem_map.mp ha
    exact absurd (by simpa using hfst) (by simpa using hany e he)

/-- The value of the last occurrence of a key in an entry list. -/
def lastValue (es : List (RString × RString)) (k : RString) : Option RString :=
  (es.reverse.find? (fun e => e.1 = k)).map (fun e => e.2)

theorem lastValue_nil (k : RString) : lastValue [] k = none := rfl

theorem lastValue_cons (e : RString × RString) (es : List (RString × RString))
    (k : RString) :
    lastValue (e :: es) k =
      match lastValue es k with
      | some v => some v
      | none => if e.1 = k then some e.2 else none := by
  rw [lastValue, lastValue, List.reverse_cons, List.find?_append]
  cases h : (es.reverse.find? (fun e => e.1 = k)) with
  | some v => simp [Option.orElse]
  | none =>
    by_cases hpe : e.1 = k
    · simp [Option.orElse, List.find?_cons_of_pos, hpe]
    · simp [Option.orElse, List.find?_cons_of_neg, hpe]

theorem foldl_insert_get (es : List (RString × RString)) (d : Dict) (k : RString) :
    dictGet (es.foldl (fun m e => dictInsert m e.1 e.2) d) k =
      match lastValue es k with
      | some v => some v
      | none => dictGet d k := by
  induction es generalizing d with
  | nil => simp [lastValue_nil]
  | cons e tl ih =>
    rw [List.foldl_cons, ih (dictInsert d e.1 e.2), dictGet_insert, lastValue_cons]
    cases h : lastValue tl k with
    | some v => rfl
    | none =>
      by_cases hk : k = e.1
      · simp [hk]
      · rw [if_neg hk, if_neg (fun hh : e.1 = k => hk hh.symm)]

theorem foldl_insert_length_le (es : List (RString × RString)) (d : Dict) :
    (es.foldl (fun m e => dictInsert m e.1 e.2) d).length ≤ d.length + es.length := by
  induction es generalizing d with
  | nil => simp
  | cons e tl ih =>
    rw [List.foldl_cons]
    refine le_trans (ih (dictInsert d e.1 e.2)) ?_
    rw [dictInsert_length]
    by_cases h : d.any (fun x => x.1 = e.1)
    · simp [h]
    · simp [h]
      omega

theorem foldl_insert_length_lt_of_mem (es : List (RString × RString)) (d : Dict)
    (h : ∃ e ∈ es, d.any (fun x => x.1 = e.1) = true) :
    (es.foldl (fun m e => dictInsert m e.1 e.2) d).length < d.length + es.length := by
  induction es generalizing d with
  | nil => simp at h
  | cons e tl ih =>
    rw [List.foldl_cons]
    obtain ⟨e', he', hany⟩ := h
    rcases List.mem_cons.mp he' with he'' | he''
    · subst he''
      have h1 : (dictInsert d e'.1 e'.2).length = d.length := by
        rw [dictInsert_length, if_pos hany]
      calc (tl.foldl (fun m e => dictInsert m e.1 e.2) (dictInsert d e'.1 e'.2)).length
          ≤ (dictInsert d e'.1 e'.2).length + tl.length := foldl_insert_length_le tl _
        _ = d.length + tl.length := by rw [h1]
        _ < d.length + (e' :: tl).length := by simp
    · have hany' : (dictInsert d e.1 e.2).any (fun x => x.1 = e'.1) = true := by
        rw [dictInsert_any]
        simp [hany]
      have := ih (dictInsert d e.1 e.2) ⟨e', he'', hany'⟩
      have hlen : (dictInsert d e.1 e.2).length ≤ d.length + 1 := by
        rw [dictInsert_length]
        by_cases hh : d.any (fun x => x.1 = e.1) <;> simp [hh]
      simp only [List.length_cons]
      omega

theorem foldl_insert_length_lt_dup (es : List (RString × RString)) (d : Dict)
    (h : ¬ (es.map Prod.fst).Nodup) :
    (es.foldl (fun m e => dictInsert m e.1 e.2) d).length < d.length + es.length := by
  induction es generalizing d with
  | nil => simp at h
  | cons e tl ih =>
    rw [List.map_cons, List.nodup_cons] at h
    push_neg at h
    rw [List.foldl_cons]
    by_cases hmem : e.1 ∈ tl.map Prod.fst
    · obtain ⟨e', he', hfst⟩ := List.mem_map.mp hmem
      have hany' : (dictInsert d e.1 e.2).any (fun x => x.1 = e'.1) = true := by
        rw [dictInsert_any]
        simp [hfst.symm]
      calc (tl.foldl (fun m e => dictInsert m e.1 e.2) (dictInsert d e.1 e.2)).length
          < (dictInsert d e.1 e.2).length + tl.length :=
            foldl_insert_length_lt_of_mem tl _ ⟨e', he', hany'⟩
        _ ≤ (d.length + 1) + tl.length := by
            rw [dictInsert_length]
            by_cases hh : d.any (fun x => x.1 = e.1) <;> simp [hh]
        _ = d.length + (e :: tl).length := by simp; omega
    · have hnd := h hmem
      have := ih (dictInsert d e.1 e.2) hnd
      have hlen : (dictInsert d e.1 e.2).length ≤ d.length + 1 := by
        rw [dictInsert_length]
        by_cases hh : d.any (fun x => x.1 = e.1) <;> simp [hh]
      simp only [List.length_cons]
      omega

theorem foldl_insert_keys_nodup (es : List (RString × RString)) (d : Dict)
    (h : (d.map Prod.fst).Nodup) :
    ((es.foldl (fun m e => dictInsert m e.1 e.2) d).map Prod.fst).Nodup := by
  induction es generalizing d with
  | nil => exact h
  | cons e tl ih => exact ih _ (dictInsert_keys_nodup d e.1 e.2 h)

theorem foldl_insert_of_fresh (es : List (RString × RString)) (d : Dict)
    (hfresh : ∀ e ∈ es, d.any (fun x => x.1 = e.1) = false)
    (hnd : (es.map Prod.fst).Nodup) :
    es.foldl (fun m e => dictInsert m e.1 e.2) d = d ++ es := by
  induction es generalizing d with
  | nil => simp
  | cons e tl ih =>
    rw [List.foldl_cons]
    have h1 : dictInsert d e.1 e.2 = d ++ [e] := by
      rw [dictInsert, if_neg (by simp [hfresh e (by simp)])]
    rw [h1]
    rw [List.map_cons, List.nodup_cons] at hnd
    rw [ih (d ++ [e]) ?fresh hnd.2]
    · simp
    case fresh =>
      intro e' he'
      have h2 := hfresh e' (List.mem_cons_of_mem e he')
      have h3 : ¬ (e.1 = e'.1) := fun hh => hnd.1 (by
        rw [hh]; exact List.mem_map_of_mem Prod.fst he')
      simp [List.any_append, h2, h3]

theorem repeatP_length {α : Type} (p : Bytes → PResult α) (n : Nat) (i r : Bytes)
    (as : List α) (h : repeatP p n i = .ok (r, as)) : as.length = n := by
  induction n generalizing i as with
  | zero =>
    simp only [repeatP, Except.ok.injEq, Prod.mk.injEq] at h
    rw [← h.2]; rfl
  | succ m ih =>
    rw [repeatP] at h
    cases hp : p i with
    | error e => rw [pbind_err hp] at h; simp at h
    | ok x =>
      rw [pbind_ok hp] at h
      cases hr : repeatP p m x.1 with
      | error e => rw [pbind_err hr] at h; simp at h
      | ok y =>
        rw [pbind_ok hr] at h
        simp only [Except.ok.injEq, Prod.mk.injEq] at h
        obtain ⟨h1, h2⟩ := h
        rw [← h2, List.length_cons, ih x.1 y.2 (by rw [hr, ← h1])]
  

/-- C10: when the encoded entry sequence of a dictionary repeats a key,
`parse_dict` still succeeds (the count having passed validation and every
entry parsed), the resulting map keeps the value of the last occurrence of
each key, and its entry count is strictly smaller than the declared count. -/
theorem C10_duplicate_keys_last_wins (i i1 rest : Bytes) (n : Nat)
    (entries : List (RString × RString))
    (h1 : le_u32 i = .ok (i1, n))
    (h2 : validate_count i1 n 8 = .ok n)
    (h3 : repeatP parse_dict_entry n i1 = .ok (rest, entries))
    (hdup : ¬ (entries.map Prod.fst).Nodup) :
    ∃ d : Dict, parse_dict i = .ok (rest, d) ∧
      (∀ k, dictGet d k = lastValue entries k) ∧
      d.length < n := by
  refine ⟨entries.foldl (fun map e => dictInsert map e.1 e.2) [], ?_, ?_, ?_⟩
  · rw [parse_dict, pbind_ok h1]
    simp only [h2]
    rw [pbind_ok h3]
  · intro k
    rw [foldl_insert_get, dictGet_nil]
    cases lastValue entries k <;> rfl
  · have hlen := repeatP_length parse_dict_entry n i1 rest entries h3
    have := foldl_insert_length_lt_dup entries [] hdup
    simpa [hlen] using this

/-- A dictionary encoding with a duplicated key `"a"`: declared count 2,
entries `("a","x")` then `("a","y")`. -/
def c10bytes : Bytes :=
  [2,0,0,0] ++
    ([1,0,0,0, 97] ++ [1,0,0,0, 120]) ++
    ([1,0,0,0, 97] ++ [1,0,0,0, 121])

/-- Witness for C10 on `c10bytes`: the parse succeeds, `"a"` maps to the
later `"y"`, and the map has 1 < 2 entries. -/
theorem C10_witness :
    ∃ d : Dict, parse_dict c10bytes = .ok ([], d) ∧
      (∀ k, dictGet d k = lastValue [([97], [120]), ([97], [121])] k) ∧
      d.length < 2 :=
  C10_duplicate_keys_last_wins c10bytes (c10bytes.drop 4) [] 2
    [([97], [120]), ([97], [121])] (by rfl) (by rfl) (by rfl) (by decide)

/-- C5 (counterexample): a frame whose `_r` attribute is `"5"` — a byte that
is not a valid signed-permutation encoding (both row indices 1) — makes
`orientation()` hit the `assert!` in `Rotation::from_byte` and panic instead
of yielding `None`, refuting the claim that malformed entries yield none
rather than failing. -/
theorem C5_counterexample :
    Frame.orientation ⟨[(key_r, [53])]⟩ = .error .panic := by rfl

/-- The `_t` value parser of `Frame::position` (the `i32, space1, i32,
space1, i32` tuple chain from `scene.rs`), as a named function. -/
def position_parse (value : RString) : Option Position :=
  match parse_dec_i32 value with
  | some (x, r1) =>
    match parse_space1 r1 with
    | some r2 =>
      match parse_dec_i32 r2 with
      | some (y, r3) =>
        match parse_space1 r3 with
        | some r4 =>
          match parse_dec_i32 r4 with
          | some (z, _) => some { x, y, z }
          | none => none
        | none => none
      | none => none
    | none => none
  | none => none

/-- C5 (amended): `position()` and `frame_index()` are total accessors that
return `none` when the `_t`/`_f` entry is absent and otherwise parse its
value (`none` on a parse failure); `orientation()` returns `none` when `_r`
is absent or does not parse as a decimal byte and `some` when the byte is a
valid encoding, but an `_r` byte that is not a valid signed permutation
panics in `Rotation::from_byte` instead of yielding `none`. -/
theorem C5_frame_accessors_amended (f : Frame) :
    (dictGet f.attributes key_r = none → f.orientation = .ok none) ∧
    (∀ v, dictGet f.attributes key_r = some v → parse_dec_u8 v = none →
      f.orientation = .ok none) ∧
    (∀ v b, dictGet f.attributes key_r = some v → parse_dec_u8 v = some b →
      Rotation.from_byte b = .ok ⟨b⟩ → f.orientation = .ok (some ⟨b⟩)) ∧
    (∀ v b, dictGet f.attributes key_r = some v → parse_dec_u8 v = some b →
      Rotation.from_byte b = .error .panic → f.orientation = .error .panic) ∧
    (dictGet f.attributes key_t = none → f.position = none) ∧
    (∀ v, dictGet f.attributes key_t = some v → f.position = position_parse v) ∧
    (dictGet f.attributes key_f = none → f.frame_index = none) ∧
    (∀ v, dictGet f.attributes key_f = some v → f.frame_index = parse_dec_u32 v) := by
  refine ⟨?_, ?_, ?_, ?_, ?_, ?_, ?_, ?_⟩
  · intro h; simp [Frame.orientation, h]
  · intro v hv hb; simp [Frame.orientation, hv, hb]
  · intro v b hv hb hf; simp [Frame.orientation, hv, hb, hf]
  · intro v b hv hb hf; simp [Frame.orientation, hv, hb, hf]
  · intro h; simp [Frame.position, h]
  · intro v hv; simp [Frame.position, position_parse, hv]
  · intro h; simp [Frame.frame_index, h]
  · intro v hv; simp [Frame.frame_index, hv]

/-- Witness for C5 on concrete frames: `_r = "40"` (a valid encoding) gives
an orientation, `_t = "1 2 3"` a position, `_f = "7"` a frame index. -/
theorem C5_witness :
    Frame.orientation ⟨[(key_r, [52, 48])]⟩ = .ok (some ⟨40⟩) ∧
    Frame.position ⟨[(key_t, [49, 32, 50, 32, 51])]⟩ = some ⟨1, 2, 3⟩ ∧
    Frame.frame_index ⟨[(key_f, [55])]⟩ = some 7 :=
  ⟨(C5_frame_accessors_amended _).2.2.1 [52, 48] 40 (by rfl) (by rfl) (by rfl),
   by rw [(C5_frame_accessors_amended
     ⟨[(key_t, [49, 32, 50, 32, 51])]⟩).2.2.2.2.2.1 [49, 32, 50, 32, 51] (by rfl)]; rfl,
   by rw [(C5_frame_accessors_amended
     ⟨[(key_f, [55])]⟩).2.2.2.2.2.2.2 [55] (by rfl)]; rfl⟩

/-- C4 (counterexample): after a single Size chunk, a second Voxels chunk —
which per the claim has "no pending size" and should be dropped — still
produces a second Model, because the `if let Some(size) = size_holder` in
`map_chunk_to_data` never clears the buffered size. -/
theorem C4_counterexample :
    (map_chunk_to_data 150
      (.main [.size ⟨1, 1, 1⟩, .voxels [], .voxels []])).models =
      [{ size := ⟨1, 1, 1⟩, voxels := [] }, { size := ⟨1, 1, 1⟩, voxels := [] }] := by
  rfl

/-- The models produced by the fold, per the amended claim's words: every
Voxels chunk pairs with the most recently seen Size chunk — the pending size
is retained, not cleared — and a Voxels chunk before any Size chunk is
dropped. -/
def modelsSpec : List Chunk → Option Size → List Model
  | [], _ => []
  | .size s :: rest, _ => modelsSpec rest (some s)
  | .voxels vs :: rest, pending =>
      (match pending with
        | some s => [{ size := s, voxels := vs }]
        | none => []) ++ modelsSpec rest pending
  | _ :: rest, pending => modelsSpec rest pending

theorem foldl_map_step_models (chunks : List Chunk) : ∀ st : MapState,
    (chunks.foldl map_step st).models = st.models ++ modelsSpec chunks st.size_holder := by
  induction chunks with
  | nil => intro st; simp [modelsSpec]
  | cons c tl ih =>
    intro st
    cases c with
    | size s => simp [map_step, ih, modelsSpec]
    | voxels vs =>
      cases hsh : st.size_holder with
      | some s => simp [map_step, hsh, ih, modelsSpec]
      | none => simp [map_step, hsh, ih, modelsSpec]
    | main cs => simp [map_step, ih, modelsSpec]
    | palette p => simp [map_step, ih, modelsSpec]
    | material m => simp [map_step, ih, modelsSpec]
    | transformNode t => simp [map_step, ih, modelsSpec]
    | groupNode g => simp [map_step, ih, modelsSpec]
    | shapeNode s => simp [map_step, ih, modelsSpec]
    | layer l => simp [map_step, ih, modelsSpec]
    | unknown id => simp [map_step, ih, modelsSpec]
    | invalid raw => simp [map_step, ih, modelsSpec]

/-- C4 (amended): during `map_chunk_to_data`'s fold, a Voxels chunk is paired
with the most recently buffered Size into one Model, but the pending-size
slot is NOT cleared, so every later Voxels chunk (including a second one
after a single Size chunk) produces a further Model with that same size;
only a Voxels chunk preceding any Size chunk is silently dropped. -/
theorem C4_mapper_pending_size_amended (version : Nat) (chunks : List Chunk) :
    (map_chunk_to_data version (.main chunks)).models = modelsSpec chunks none := by
  show (chunks.foldl map_step _).models = _
  rw [foldl_map_step_models]
  rfl

theorem many0_colors_len : ∀ n (i : Bytes), i.length ≤ n →
    (many0_colors i).1.length = i.length % 4 ∧
    (many0_colors i).2.length = i.length / 4 := by
  intro n
  induction n with
  | zero =>
    intro i h
    have : i = [] := List.eq_nil_of_length_eq_zero (Nat.le_antisymm h (Nat.zero_le _))
    subst this
    simp [many0_colors]
  | succ m ih =>
    intro i h
    match i with
    | b0 :: b1 :: b2 :: b3 :: rest =>
      have hr : rest.length ≤ m := by simp at h; omega
      have := ih rest hr
      simp only [many0_colors, List.length_cons, this.1, this.2]
      constructor
      · omega
      · omega
    | [] => simp [many0_colors]
    | [b0] => simp [many0_colors]
    | [b0, b1] => simp [many0_colors]
    | [b0, b1, b2] => simp [many0_colors]

theorem build_palette_chunk_mod (content : Bytes) (h : content.length % 4 = 0) :
    build_palette_chunk content = .palette (many0_colors content).2 ∧
    (many0_colors content).2.length = content.length / 4 := by
  have hl := many0_colors_len content.length content le_rfl
  have hr : (many0_colors content).1 = [] :=
    List.eq_nil_of_length_eq_zero (by rw [hl.1, h])
  constructor
  · rw [build_palette_chunk, extract_palette, if_pos hr]
  · exact hl.2

theorem build_palette_chunk_invalid (content : Bytes) (h : content.length % 4 ≠ 0) :
    build_palette_chunk content = .invalid content := by
  have hl := many0_colors_len content.length content le_rfl
  have hr : (many0_colors content).1 ≠ [] := by
    intro hh
    rw [hh] at hl
    simp at hl
    omega
  rw [build_palette_chunk, extract_palette, if_neg hr]

theorem foldl_map_step_palette (chunks : List Chunk) : ∀ st : MapState,
    (chunks.foldl map_step st).palette_holder =
      chunks.foldl
        (fun acc c => match c with | Chunk.palette p => p | _ => acc)
        st.palette_holder := by
  induction chunks with
  | nil => intro st; rfl
  | cons c tl ih =>
    intro st
    cases c with
    | voxels vs => cases hsh : st.size_holder <;> simp [map_step, hsh, ih]
    | size s => simp [map_step, ih]
    | main cs => simp [map_step, ih]
    | palette p => simp [map_step, ih]
    | material m => simp [map_step, ih]
    | transformNode t => simp [map_step, ih]
    | groupNode g => simp [map_step, ih]
    | shapeNode s => simp [map_step, ih]
    | layer l => simp [map_step, ih]
    | unknown id => simp [map_step, ih]
    | invalid raw => simp [map_step, ih]

/-- C8 (amended): the decoded palette is the last Palette chunk's color list
when one survives (left-fold, last wins), and the 256-entry built-in default
table otherwise; an RGBA chunk's content yields one color per 4 bytes —
`content.length / 4` of them, not necessarily 256 — when its length is a
multiple of 4, and the chunk is Invalid (keeping the running palette)
otherwise. -/
theorem C8_palette_amended (version : Nat) (chunks : List Chunk) (content : Bytes) :
    (map_chunk_to_data version (.main chunks)).palette =
      chunks.foldl
        (fun acc c => match c with | Chunk.palette p => p | _ => acc)
        DEFAULT_PALETTE ∧
    DEFAULT_PALETTE.length = 256 ∧
    (content.length % 4 = 0 →
      build_palette_chunk content = .palette (many0_colors content).2 ∧
      (many0_colors content).2.length = content.length / 4) ∧
    (content.length % 4 ≠ 0 → build_palette_chunk content = .invalid content) := by
  refine ⟨?_, by simp [DEFAULT_PALETTE], build_palette_chunk_mod content,
    build_palette_chunk_invalid content⟩
  show (chunks.foldl map_step _).palette_holder = _
  rw [foldl_map_step_palette]

/-- A file whose RGBA chunk holds a single color tuple. -/
def c8bytes : Bytes :=
  [86,79,88,32] ++ [150,0,0,0] ++
    ([77,65,73,78] ++ [0,0,0,0] ++ [16,0,0,0]) ++
    ([82,71,66,65] ++ [4,0,0,0] ++ [0,0,0,0] ++ [10,20,30,40])

/-- C8 (counterexample): decoding a file whose RGBA chunk holds one 4-byte
tuple succeeds with a palette of length 1, not 256. -/
theorem C8_counterexample :
    (load_bytes c8bytes).toOption.map (fun d => d.palette.length) = some 1 := by
  rfl

/-- Witness for C8 at a concrete chunk list and RGBA content. -/
theorem C8_witness :
    (map_chunk_to_data 150 (.main [.palette [⟨10, 20, 30, 40⟩]])).palette =
        [⟨10, 20, 30, 40⟩] ∧
      DEFAULT_PALETTE.length = 256 ∧
      build_palette_chunk [10, 20, 30, 40] = .palette [⟨10, 20, 30, 40⟩] :=
  ⟨(C8_palette_amended 150 [.palette [⟨10, 20, 30, 40⟩]] [10, 20, 30, 40]).1,
   (C8_palette_amended 150 [] []).2.1,
   by
    have := (C8_palette_amended 150 [] [10, 20, 30, 40]).2.2.1 (by rfl)
    rw [this.1]; rfl⟩

/-- The top-level structural conditions of a `.vox` buffer: the `"VOX "`
magic, a version word, and a top-level chunk whose header is intact and
whose declared content/children sizes fit the remaining input. -/
def top_level_ok (bytes : Bytes) : Bool :=
  decide (bytes.take 4 = MAGIC_NUMBER) && decide (8 ≤ bytes.length) &&
    (decide (12 ≤ (bytes.drop 8).length) && isValidUtf8 ((bytes.drop 8).take 4) &&
      decide (12 + headerContentSize (bytes.drop 8) +
        headerChildrenSize (bytes.drop 8) ≤ (bytes.drop 8).length))

/-- C3 (amended): only top-level violations abort — `load_bytes` returns an
aggregate exactly when the magic, the version word, and the single top-level
chunk's header and declared sizes are intact; every structural violation
strictly inside that chunk's children (truncated child chunks, impossible
element counts, malformed leaf contents) is local and still yields a
complete aggregate; on abort a single top-level error and no aggregate is
returned. -/
theorem C3_toplevel_abort_amended (bytes : Bytes) :
    ((load_bytes bytes).isOk = top_level_ok bytes) ∧
    (top_level_ok bytes = false →
      load_bytes bytes = .error "Not a valid MagicaVoxel .vox file") := by
  have hchar : (load_bytes bytes).isOk = top_level_ok bytes := by
    rw [load_bytes, parse_vox_file]
    by_cases h4 : 4 ≤ bytes.length
    · rw [pbind_ok (takeP_of_le h4)]
      by_cases hm : bytes.take 4 = MAGIC_NUMBER
      · rw [if_pos hm]
        by_cases h8 : 8 ≤ bytes.length
        · rw [pbind_ok (le_u32_of_length (by simp; omega : 4 ≤ (bytes.drop 4).length))]
          rw [List.drop_drop]
          norm_num
          rw [parse_chunk_eq]
          by_cases h12 : 12 ≤ (bytes.drop 8).length
          · rw [if_pos h12]
            by_cases hu : isValidUtf8 ((bytes.drop 8).take 4)
            · rw [if_pos hu]
              by_cases hb : 12 + headerContentSize (bytes.drop 8) +
                  headerChildrenSize (bytes.drop 8) ≤ (bytes.drop 8).length
              · rw [if_pos hb]
                simp only [List.length_drop] at h12 hb
                simp [top_level_ok, pbind, Except.isOk, Except.toBool, hm, h8, h12, hu, hb]
              · rw [if_neg hb]
                simp only [List.length_drop] at h12 hb
                simp [top_level_ok, pbind, Except.isOk, Except.toBool, hm, h8, h12, hu, hb]
            · rw [if_neg hu]
              simp only [List.length_drop] at h12
              simp [top_level_ok, pbind, Except.isOk, Except.toBool, hm, h8, h12, hu]
          · rw [if_neg h12]
            simp only [List.length_drop] at h12
            simp [top_level_ok, pbind, Except.isOk, Except.toBool, hm, h8, h12]
        · rw [pbind_err (le_u32_err (by simp; omega))]
          simp [top_level_ok, pbind, Except.isOk, Except.toBool, hm]
          omega
      · rw [if_neg hm]
        simp [top_level_ok, Except.isOk, Except.toBool, hm]
    · rw [pbind_err (takeP_err (by omega))]
      have : ¬ (bytes.take 4 = MAGIC_NUMBER) := by
        intro hh
        have := congrArg List.length hh
        simp [MAGIC_NUMBER] at this
        omega
      simp [top_level_ok, Except.isOk, Except.toBool, this]
  refine ⟨hchar, fun hfail => ?_⟩
  rw [load_bytes]
  cases hp : parse_vox_file bytes with
  | ok x =>
    have : (load_bytes bytes).isOk = true := by rw [load_bytes, hp]; rfl
    rw [hchar] at this
    rw [this] at hfail
    simp at hfail
  | error e => rfl

/-- A file whose MAIN chunk holds one MATL chunk whose dictionary declares
`0xFFFFFFFF` entries with no bytes behind it. -/
def c3bytes : Bytes :=
  [86,79,88,32] ++ [150,0,0,0] ++
    ([77,65,73,78] ++ [0,0,0,0] ++ [20,0,0,0]) ++
    ([77,65,84,76] ++ [8,0,0,0] ++ [0,0,0,0] ++ ([1,0,0,0] ++ [255,255,255,255]))

/-- C3 (counterexample): an element count that cannot possibly fit in the
remaining bytes — a MATL dictionary declaring `2^32 - 1` entries — does NOT
abort the decode: `load_bytes` returns a complete aggregate (the offending
chunk merely became Invalid and was dropped), refuting the claim that bad
counts surface a top-level error with no aggregate. -/
theorem C3_counterexample :
    load_bytes c3bytes =
      .ok { version := 150, models := [], palette := DEFAULT_PALETTE,
            materials := [], scenes := [], layers := [] } := by
  rfl

/-- Witness for C3 on the empty buffer (top-level violation: no magic). -/
theorem C3_witness :
    top_level_ok [] = false ∧
      load_bytes [] = .error "Not a valid MagicaVoxel .vox file" :=
  ⟨by rfl, (C3_toplevel_abort_amended []).2 (by rfl)⟩

/-- The declared element count handed to `nom::multi::count` by
`parse_scene_group`, with the number of input bytes remaining at that point:
the value the claim says must first pass `validate_count` (whose own
documentation prescribes exactly that whenever `nom::multi::count` is used
with a file-provided count). -/
def scene_group_count_request (i : Bytes) : Option (Nat × Nat) :=
  match parse_node_header i with
  | .ok (i, _) =>
    match le_u32 i with
    | .ok (i, child_count) => some (child_count, i.length)
    | _ => none
  | _ => none

/-- An nGRP chunk content declaring `2^32 - 1` children after an empty
attribute dictionary, with no bytes behind it. -/
def c2group : Bytes := [0,0,0,0] ++ [0,0,0,0] ++ [255,255,255,255]

/-- A file whose MAIN chunk holds that nGRP chunk. -/
def c2file : Bytes :=
  [86,79,88,32] ++ [150,0,0,0] ++
    ([77,65,73,78] ++ [0,0,0,0] ++ [24,0,0,0]) ++
    ([110,71,82,80] ++ [12,0,0,0] ++ [0,0,0,0] ++ c2group)

/-- C2: `parse_scene_group` reads a child count of `2^32 - 1` with 0 bytes
remaining — a count `validate_count` (minimum element size 4) would reject
with the TooLarge `Failure` before any allocation — yet it proceeds to
element parsing without validation, failing only with the ordinary
truncation `Error`; `parse_voxels` likewise passes its raw count straight to
`nom::multi::count`; and the overall decode of a file containing the
oversized group chunk still returns `Ok`. -/
theorem C2_unvalidated_count_evidence :
    scene_group_count_request c2group = some (4294967295, 0) ∧
    4294967295 > 0 / 4 ∧
    validate_count [] 4294967295 4 = .error .fail ∧
    parse_scene_group c2group = .error .err ∧
    parse_voxels [255,255,255,255] = .error .err ∧
    load_bytes c2file =
      .ok { version := 150, models := [], palette := DEFAULT_PALETTE,
            materials := [], scenes := [], layers := [] } := by
  exact ⟨by rfl, by decide, by rfl, by rfl, by rfl, by rfl⟩


end DotVox

namespace DotVox

theorem many0F_zero (p : Bytes → PResult Chunk) (i : Bytes) :
    many0F p 0 i = .error .err := rfl

theorem many0F_succ_err (p : Bytes → PResult Chunk) (fuel : Nat) (i : Bytes)
    (hp : p i = .error .err) : many0F p (fuel + 1) i = .ok (i, []) := by
  rw [many0F, hp]

theorem many0F_succ_fail (p : Bytes → PResult Chunk) (fuel : Nat) (i : Bytes)
    (hp : p i = .error .fail) : many0F p (fuel + 1) i = .error .fail := by
  rw [many0F, hp]

theorem many0F_succ_ok (p : Bytes → PResult Chunk) (fuel : Nat) (i i1 : Bytes)
    (c : Chunk) (hp : p i = .ok (i1, c)) :
    many0F p (fuel + 1) i =
      if i1.length < i.length then
        match many0F p fuel i1 with
        | .error e => .error e
        | .ok (r, cs) => .ok (r, c :: cs)
      else .error .err := by
  rw [many0F, hp]

theorem many0F_fuel (p : Bytes → PResult Chunk) :
    ∀ f f' i, i.length < f → i.length < f' → many0F p f i = many0F p f' i := by
  intro f
  induction f with
  | zero => intro f' i h h'; omega
  | succ m ih =>
    intro f' i h h'
    match f', h' with
    | f'' + 1, h' =>
      cases hp : p i with
      | error e =>
        cases e
        · rw [many0F_succ_err _ _ _ hp, many0F_succ_err _ _ _ hp]
        · rw [many0F_succ_fail _ _ _ hp, many0F_succ_fail _ _ _ hp]
      | ok x =>
        obtain ⟨i1, c⟩ := x
        rw [many0F_succ_ok _ _ _ _ _ hp, many0F_succ_ok _ _ _ _ _ hp]
        by_cases hlt : i1.length < i.length
        · rw [if_pos hlt, if_pos hlt, ih f'' i1 (by omega) (by omega)]
        · rw [if_neg hlt, if_neg hlt]

theorem many0F_congr (p q : Bytes → PResult Chunk) :
    ∀ f i, (∀ j : Bytes, j.length ≤ i.length → p j = q j) →
      many0F p f i = many0F q f i := by
  intro f
  induction f with
  | zero => intro i h; rfl
  | succ m ih =>
    intro i h
    cases hp : p i with
    | error e =>
      cases e
      · rw [many0F_succ_err _ _ _ hp, many0F_succ_err _ _ _ ((h i le_rfl).symm.trans hp)]
      · rw [many0F_succ_fail _ _ _ hp, many0F_succ_fail _ _ _ ((h i le_rfl).symm.trans hp)]
    | ok x =>
      obtain ⟨i1, c⟩ := x
      rw [many0F_succ_ok _ _ _ _ _ hp,
        many0F_succ_ok _ _ _ _ _ ((h i le_rfl).symm.trans hp)]
      by_cases hlt : i1.length < i.length
      · rw [if_pos hlt, if_pos hlt,
          ih i1 (fun j hj => h j (le_trans hj (le_of_lt hlt)))]
      · rw [if_neg hlt, if_neg hlt]

theorem parse_chunkF_fuel :
    ∀ n, ∀ i : Bytes, i.length ≤ n → ∀ f f', i.length < f → i.length < f' →
      parse_chunkF f i = parse_chunkF f' i := by
  intro n
  induction n with
  | zero =>
    intro i hn f f' hf hf'
    have hi : i = [] := List.eq_nil_of_length_eq_zero (Nat.le_antisymm hn (Nat.zero_le _))
    subst hi
    match f, hf with
    | fa + 1, _ =>
      match f', hf' with
      | fb + 1, _ =>
        rw [parse_chunkF_eq, parse_chunkF_eq]
        simp
  | succ m ih =>
    intro i hn f f' hf hf'
    match f, hf with
    | fa + 1, _ =>
      match f', hf' with
      | fb + 1, _ =>
        rw [parse_chunkF_eq, parse_chunkF_eq]
        by_cases h12 : 12 ≤ i.length
        · by_cases hu : isValidUtf8 (i.take 4)
          · by_cases hb : 12 + headerContentSize i + headerChildrenSize i ≤ i.length
            · rw [if_pos h12, if_pos h12, if_pos hu, if_pos hu, if_pos hb, if_pos hb]
              by_cases hks : headerChildrenSize i = 0
              · rw [if_pos hks, if_pos hks]
              · rw [if_neg hks, if_neg hks]
                have hcc : ((i.drop (12 + headerContentSize i)).take
                    (headerChildrenSize i)).length ≤ i.length - 12 := by
                  simp
                  omega
                congr 2
                rw [build_parent_chunk, build_parent_chunk]
                have hcongr := many0F_congr (fun j => parse_chunkF fa j)
                  (fun j => parse_chunkF fb j)
                  (((i.drop (12 + headerContentSize i)).take (headerChildrenSize i)).length + 1)
                  ((i.drop (12 + headerContentSize i)).take (headerChildrenSize i))
                  (fun j hj => ih j (by omega) fa fb (by omega) (by omega))
                rw [hcongr]
            · rw [if_pos h12, if_pos h12, if_pos hu, if_pos hu, if_neg hb, if_neg hb]
          · rw [if_pos h12, if_pos h12, if_neg hu, if_neg hu]
        · rw [if_neg h12, if_neg h12]

/-- `parse_chunkF` with any sufficient fuel is `parse_chunk`. -/
theorem parse_chunkF_canonical (i : Bytes) (f : Nat) (h : i.length < f) :
    parse_chunkF f i = parse_chunk i :=
  parse_chunkF_fuel i.length i le_rfl f (i.length + 1) h (by omega)

end DotVox

namespace DotVox

/-! ## Well-formedness invariants of decoded data -/

/-- A string as produced by `parse_string`: under the `u32` length limit and
valid UTF-8. -/
def WFString (s : RString) : Prop :=
  s.length < 4294967296 ∧ isValidUtf8 s = true

/-- A dictionary as produced by `parse_dict`: entry count under the `u32`
limit, unique keys, and well-formed strings. -/
def WFDict (d : Dict) : Prop :=
  d.length < 4294967296 ∧ (d.map Prod.fst).Nodup ∧
    ∀ e ∈ d, WFString e.1 ∧ WFString e.2

/-! ## Writer/parser round-trip lemmas -/

theorem le_u32_leBytes32 (n : Nat) (rest : Bytes) (h : n < 4294967296) :
    le_u32 (leBytes32 n ++ rest) = .ok (rest, n) := by
  show Except.ok (rest, (n % 256) + 256 * (n / 256 % 256) + 65536 * (n / 65536 % 256)
    + 16777216 * (n / 16777216 % 256)) = Except.ok (rest, n)
  congr 2
  omega

theorem leVal_leBytes32 (n : Nat) (rest : Bytes) (h : n < 4294967296) :
    leVal (leBytes32 n ++ rest) = n := by
  show (n % 256) + 256 * (n / 256 % 256) + 65536 * (n / 65536 % 256)
    + 16777216 * (n / 16777216 % 256) = n
  omega

theorem takeP_exact (xs rest : Bytes) :
    takeP xs.length (xs ++ rest) = .ok (rest, xs) := by
  rw [takeP_of_le (by simp)]
  rw [List.take_left, List.drop_left]

theorem parse_string_roundtrip (s : RString) (rest : Bytes)
    (h1 : s.length < 4294967296) (h2 : isValidUtf8 s = true) :
    parse_string (write_string s ++ rest) = .ok (rest, s) := by
  rw [parse_string, write_string, List.append_assoc,
    pbind_ok (le_u32_leBytes32 s.length (s ++ rest) h1),
    pbind_ok (takeP_exact s rest), to_str, if_pos h2]

/-- The encoding of one dictionary entry. -/
def entryBytes (e : RString × RString) : Bytes :=
  write_string e.1 ++ write_string e.2

theorem parse_dict_entry_roundtrip (e : RString × RString) (rest : Bytes)
    (h1 : WFString e.1) (h2 : WFString e.2) :
    parse_dict_entry (entryBytes e ++ rest) = .ok (rest, e) := by
  rw [parse_dict_entry, entryBytes, List.append_assoc,
    pbind_ok (parse_string_roundtrip e.1 _ h1.1 h1.2),
    pbind_ok (parse_string_roundtrip e.2 _ h2.1 h2.2)]

theorem repeatP_concat {α : Type} (p : Bytes → PResult α) (enc : α → Bytes) :
    ∀ (xs : List α) (rest : Bytes),
      (∀ x ∈ xs, ∀ r : Bytes, p (enc x ++ r) = .ok (r, x)) →
      repeatP p xs.length ((xs.map enc).flatten ++ rest) = .ok (rest, xs) := by
  intro xs
  induction xs with
  | nil => intro rest h; rfl
  | cons x tl ih =>
    intro rest h
    rw [List.length_cons, repeatP, List.map_cons, List.flatten_cons, List.append_assoc,
      pbind_ok (h x (by simp) _),
      pbind_ok (ih rest (fun y hy r => h y (by simp [hy]) r))]

theorem entryBytes_len (e : RString × RString) :
    (entryBytes e).length = 8 + e.1.length + e.2.length := by
  simp [entryBytes, write_string, leBytes32]
  omega

theorem flatten_entryBytes_len (d : Dict) :
    8 * d.length ≤ ((d.map entryBytes).flatten).length := by
  induction d with
  | nil => simp
  | cons e tl ih =>
    rw [List.map_cons, List.flatten_cons, List.length_append, entryBytes_len,
      List.length_cons]
    omega

theorem parse_dict_roundtrip (d : Dict) (rest : Bytes) (h : WFDict d) :
    parse_dict (write_dict d ++ rest) = .ok (rest, d) := by
  obtain ⟨hlen, hnd, hstr⟩ := h
  rw [parse_dict, write_dict]
  simp only [show (fun e : RString × RString => write_string e.1 ++ write_string e.2)
    = entryBytes from rfl]
  rw [List.append_assoc, pbind_ok (le_u32_leBytes32 d.length _ hlen)]
  have hval : validate_count ((d.map entryBytes).flatten ++ rest) d.length 8 =
      .ok d.length := by
    rw [validate_count, if_neg]
    push_neg
    refine Nat.le_div_iff_mul_le (by omega) |>.mpr ?_
    have := flatten_entryBytes_len d
    simp only [List.length_append]
    omega
  simp only [hval]
  rw [pbind_ok (repeatP_concat parse_dict_entry entryBytes d rest
    (fun e he r => parse_dict_entry_roundtrip e r (hstr e he).1 (hstr e he).2))]
  rw [foldl_insert_of_fresh d [] (fun e _ => rfl) hnd, List.nil_append]

end DotVox

namespace DotVox

theorem parse_size_roundtrip (x y z : Nat) (rest : Bytes)
    (hx : x < 4294967296) (hy : y < 4294967296) (hz : z < 4294967296) :
    parse_size (leBytes32 x ++ (leBytes32 y ++ (leBytes32 z ++ rest))) =
      .ok (rest, { x, y, z }) := by
  rw [parse_size, pbind_ok (le_u32_leBytes32 x _ hx),
    pbind_ok (le_u32_leBytes32 y _ hy), pbind_ok (le_u32_leBytes32 z _ hz)]

/-- The 4 bytes a voxel is written as by `write_model`. -/
def voxelBytes (v : Voxel) : Bytes := [v.x, v.y, v.z, byteOf (v.i.val + 1)]

theorem parse_voxel_roundtrip (v : Voxel) (rest : Bytes) (h : v.i.val ≤ 254) :
    parse_voxel (voxelBytes v ++ rest) = .ok (rest, v) := by
  have h1 : voxelBytes v ++ rest = v.x :: v.y :: v.z :: byteOf (v.i.val + 1) :: rest := rfl
  have hb : byteOf (v.i.val + 1) = ⟨v.i.val + 1, by omega⟩ :=
    Fin.ext (by simp [byteOf]; omega)
  rw [h1, hb]
  rfl

theorem parse_voxels_roundtrip (vs : List Voxel) (rest : Bytes)
    (hlen : vs.length < 4294967296) (hwf : ∀ v ∈ vs, v.i.val ≤ 254) :
    parse_voxels (leBytes32 vs.length ++ ((vs.map voxelBytes).flatten ++ rest)) =
      .ok (rest, vs) := by
  rw [parse_voxels, pbind_ok (le_u32_leBytes32 vs.length _ hlen)]
  exact repeatP_concat parse_voxel voxelBytes vs rest
    (fun v hv r => parse_voxel_roundtrip v r (hwf v hv))

/-- The 4 bytes a color is written as by `write_palette_chunk`. -/
def colorBytes (c : Color) : Bytes := [c.r, c.g, c.b, c.a]

theorem many0_colors_flatten (cs : List Color) :
    many0_colors ((cs.map colorBytes).flatten) = ([], cs) := by
  induction cs with
  | nil => rfl
  | cons c tl ih =>
    show many0_colors (c.r :: c.g :: c.b :: c.a :: (tl.map colorBytes).flatten) = _
    rw [many0_colors, ih]

theorem extract_palette_roundtrip (cs : List Color) :
    extract_palette ((cs.map colorBytes).flatten) = .ok ([], cs) := by
  rw [extract_palette, many0_colors_flatten, if_pos rfl]

/-- Parsing one written leaf chunk consumes exactly its bytes and dispatches
the content to the leaf builder for its id. -/
theorem parse_chunk_write_leaf (id content rest : Bytes)
    (hid : id.length = 4) (hutf : isValidUtf8 id = true)
    (hlen : content.length < 4294967296) :
    parse_chunk (write_leaf_chunk id content ++ rest) =
      .ok (rest, build_leaf_chunk id content) := by
  rw [write_leaf_chunk, write_chunk]
  rw [List.append_assoc, List.append_assoc, List.append_assoc]
  set i := id ++ (leBytes32 content.length ++ (leBytes32 0 ++ (content ++ rest))) with hi
  have hd4 : i.drop 4 = leBytes32 content.length ++ (leBytes32 0 ++ (content ++ rest)) := by
    rw [hi, List.drop_left' hid]
  have hcs : headerContentSize i = content.length := by
    rw [headerContentSize, hd4, leVal_leBytes32 _ _ hlen]
  have hd8 : i.drop 8 = leBytes32 0 ++ (content ++ rest) := by
    rw [hi, show id ++ (leBytes32 content.length ++ (leBytes32 0 ++ (content ++ rest)))
      = (id ++ leBytes32 content.length) ++ (leBytes32 0 ++ (content ++ rest)) from by
        rw [List.append_assoc]]
    rw [List.drop_left' (by simp [leBytes32, hid])]
  have hks : headerChildrenSize i = 0 := by
    rw [headerChildrenSize, hd8, leVal_leBytes32 _ _ (by omega)]
  have hd12 : i.drop 12 = content ++ rest := by
    rw [hi, show id ++ (leBytes32 content.length ++ (leBytes32 0 ++ (content ++ rest)))
      = ((id ++ leBytes32 content.length) ++ leBytes32 0) ++ (content ++ rest) from by
        rw [List.append_assoc, List.append_assoc]]
    rw [List.drop_left' (by simp [leBytes32, hid])]
  have ht4 : i.take 4 = id := by
    rw [hi, List.take_left' hid]
  have hlength : i.length = 12 + content.length + rest.length := by
    rw [hi]
    simp [leBytes32, hid]
    omega
  have hdropfin : i.drop (12 + content.length + 0) = rest := by
    rw [Nat.add_zero, ← List.drop_drop, hd12, List.drop_left]
  have htake : (i.drop 12).take content.length = content := by
    rw [hd12, List.take_left]
  rw [parse_chunk_eq, ht4, hcs, hks]
  rw [if_pos (by omega), if_pos hutf, if_pos (by omega), if_pos rfl, hdropfin, htake]

end DotVox

namespace DotVox

theorem le_u32_leBytes32' (n : Nat) (h : n < 4294967296) :
    le_u32 (leBytes32 n) = .ok ([], n) := by
  rw [← List.append_nil (leBytes32 n)]
  exact le_u32_leBytes32 n [] h

theorem le_i32_ignored_leBytes32 (n : Nat) (rest : Bytes) :
    le_i32_ignored (leBytes32 n ++ rest) = .ok (rest, ()) := rfl

theorem repeatP_concat' {α : Type} (p : Bytes → PResult α) (enc : α → Bytes)
    (xs : List α) (h : ∀ x ∈ xs, ∀ r : Bytes, p (enc x ++ r) = .ok (r, x)) :
    repeatP p xs.length ((xs.map enc).flatten) = .ok ([], xs) := by
  rw [← List.append_nil ((xs.map enc).flatten)]
  exact repeatP_concat p enc xs [] h

/-- Well-formedness of a decoded scene node: all numeric fields under the
`u32` limit and all dictionaries as `parse_dict` produces them. -/
def WFNode : SceneNode → Prop
  | .transform a frames child layer_id =>
      WFDict a ∧ frames.length < 4294967296 ∧ (∀ f ∈ frames, WFDict f.attributes) ∧
        child < 4294967296 ∧ layer_id < 4294967296
  | .group a children =>
      WFDict a ∧ children.length < 4294967296 ∧ ∀ c ∈ children, c < 4294967296
  | .shape a models =>
      WFDict a ∧ models.length < 4294967296 ∧
        ∀ m ∈ models, m.model_id < 4294967296 ∧ WFDict m.attributes

/-- The chunk value a written scene node decodes back to (the node id is the
node's position, which the mapper discards). -/
def chunkOfNode (n : SceneNode) (idx : Nat) : Chunk :=
  match n with
  | .transform a frames child layer_id =>
      .transformNode
        { header := { id := idx, attributes := a }, child := child,
          layer_id := layer_id, frames := frames.map Frame.attributes }
  | .group a children =>
      .groupNode { header := { id := idx, attributes := a }, children := children }
  | .shape a models =>
      .shapeNode { header := { id := idx, attributes := a }, models := models }

theorem parse_node_header_roundtrip (idx : Nat) (a : Dict) (rest : Bytes)
    (hidx : idx < 4294967296) (ha : WFDict a) :
    parse_node_header (leBytes32 idx ++ (write_dict a ++ rest)) =
      .ok (rest, { id := idx, attributes := a }) := by
  rw [parse_node_header, pbind_ok (le_u32_leBytes32 idx _ hidx),
    pbind_ok (parse_dict_roundtrip a rest ha)]

theorem frames_map_eta (fs : List Frame) :
    (fs.map Frame.attributes).map Frame.mk = fs := by
  rw [List.map_map]
  exact List.map_id'' (fun f => rfl) fs

theorem parse_scene_transform_content (idx : Nat) (a : Dict) (frames : List Frame)
    (child layer_id : Nat) (hidx : idx < 4294967296) (ha : WFDict a)
    (hfl : frames.length < 4294967296) (hf : ∀ f ∈ frames, WFDict f.attributes)
    (hc : child < 4294967296) (hl : layer_id < 4294967296) :
    parse_scene_transform
      (leBytes32 idx ++ write_dict a ++ leBytes32 child ++ leBytes32 4294967295 ++
        leBytes32 layer_id ++ leBytes32 frames.length ++
        (frames.map fun fr => write_dict fr.attributes).flatten) =
      .ok ([], { header := { id := idx, attributes := a }, child := child,
                 layer_id := layer_id, frames := frames.map Frame.attributes }) := by
  simp only [List.append_assoc]
  rw [parse_scene_transform,
    pbind_ok (parse_node_header_roundtrip idx a _ hidx ha),
    pbind_ok (le_u32_leBytes32 child _ hc),
    pbind_ok (le_i32_ignored_leBytes32 4294967295 _),
    pbind_ok (le_u32_leBytes32 layer_id _ hl),
    pbind_ok (le_u32_leBytes32 frames.length _ hfl)]
  have henc : (frames.map fun fr => write_dict fr.attributes).flatten =
      (((frames.map Frame.attributes).map write_dict)).flatten := by
    rw [List.map_map]
    rfl
  have hlen2 : frames.length = (frames.map Frame.attributes).length := by simp
  rw [henc, hlen2,
    pbind_ok (repeatP_concat' parse_dict write_dict (frames.map Frame.attributes)
      (fun d hd r => parse_dict_roundtrip d r (by
        obtain ⟨f, hf2, hfd⟩ := List.mem_map.mp hd
        rw [← hfd]
        exact hf f hf2)))]

theorem parse_scene_group_content (idx : Nat) (a : Dict) (children : List Nat)
    (hidx : idx < 4294967296) (ha : WFDict a)
    (hcl : children.length < 4294967296) (hc : ∀ c ∈ children, c < 4294967296) :
    parse_scene_group
      (leBytes32 idx ++ write_dict a ++ leBytes32 children.length ++
        (children.map leBytes32).flatten) =
      .ok ([], { header := { id := idx, attributes := a }, children := children }) := by
  simp only [List.append_assoc]
  rw [parse_scene_group,
    pbind_ok (parse_node_header_roundtrip idx a _ hidx ha),
    pbind_ok (le_u32_leBytes32 children.length _ hcl),
    pbind_ok (repeatP_concat' le_u32 leBytes32 children
      (fun c hcm r => le_u32_leBytes32 c r (hc c hcm)))]

/-- The bytes a shape model is written as. -/
def shapeModelBytes (m : ShapeModel) : Bytes :=
  leBytes32 m.model_id ++ write_dict m.attributes

theorem parse_scene_shape_model_roundtrip (m : ShapeModel) (rest : Bytes)
    (hid : m.model_id < 4294967296) (ha : WFDict m.attributes) :
    parse_scene_shape_model (shapeModelBytes m ++ rest) = .ok (rest, m) := by
  rw [shapeModelBytes, List.append_assoc, parse_scene_shape_model,
    pbind_ok (le_u32_leBytes32 m.model_id _ hid),
    pbind_ok (parse_dict_roundtrip m.attributes rest ha)]

theorem parse_scene_shape_content (idx : Nat) (a : Dict) (models : List ShapeModel)
    (hidx : idx < 4294967296) (ha : WFDict a)
    (hml : models.length < 4294967296)
    (hm : ∀ m ∈ models, m.model_id < 4294967296 ∧ WFDict m.attributes) :
    parse_scene_shape
      (leBytes32 idx ++ write_dict a ++ leBytes32 models.length ++
        (models.map fun m => leBytes32 m.model_id ++ write_dict m.attributes).flatten) =
      .ok ([], { header := { id := idx, attributes := a }, models := models }) := by
  simp only [List.append_assoc]
  rw [parse_scene_shape,
    pbind_ok (parse_node_header_roundtrip idx a _ hidx ha),
    pbind_ok (le_u32_leBytes32 models.length _ hml)]
  have henc : (models.map fun m => leBytes32 m.model_id ++ write_dict m.attributes) =
      models.map shapeModelBytes := rfl
  rw [henc,
    pbind_ok (repeatP_concat' parse_scene_shape_model shapeModelBytes models
      (fun m hmm r => parse_scene_shape_model_roundtrip m r (hm m hmm).1 (hm m hmm).2))]

end DotVox

namespace DotVox

theorem length_leBytes32 (n : Nat) : (leBytes32 n).length = 4 := rfl

theorem parse_chunk_size_chunk (s : Size) (rest : Bytes)
    (hx : s.x < 4294967296) (hy : s.y < 4294967296) (hz : s.z < 4294967296) :
    parse_chunk (write_leaf_chunk idSIZE
        (leBytes32 s.x ++ leBytes32 s.y ++ leBytes32 s.z) ++ rest) =
      .ok (rest, .size s) := by
  rw [parse_chunk_write_leaf idSIZE _ rest (by rfl) (by rfl)
    (by simp [length_leBytes32])]
  congr 1
  rw [show build_leaf_chunk idSIZE
      (leBytes32 s.x ++ leBytes32 s.y ++ leBytes32 s.z) =
      build_size_chunk (leBytes32 s.x ++ leBytes32 s.y ++ leBytes32 s.z) from by
    rw [build_leaf_chunk, if_pos rfl]]
  rw [build_size_chunk, List.append_assoc, ← List.append_nil (leBytes32 s.z),
    parse_size_roundtrip s.x s.y s.z [] hx hy hz]

theorem parse_chunk_xyzi_chunk (vs : List Voxel) (rest : Bytes)
    (hlen : vs.length < 4294967296)
    (hcontent : (leBytes32 vs.length ++ (vs.map voxelBytes).flatten).length < 4294967296)
    (hwf : ∀ v ∈ vs, v.i.val ≤ 254) :
    parse_chunk (write_leaf_chunk idXYZI
        (leBytes32 vs.length ++ (vs.map voxelBytes).flatten) ++ rest) =
      .ok (rest, .voxels vs) := by
  rw [parse_chunk_write_leaf idXYZI _ rest (by rfl) (by rfl) hcontent]
  congr 1
  rw [show build_leaf_chunk idXYZI
      (leBytes32 vs.length ++ (vs.map voxelBytes).flatten) =
      build_voxel_chunk (leBytes32 vs.length ++ (vs.map voxelBytes).flatten) from by
    rw [build_leaf_chunk, if_neg (by decide), if_pos rfl]]
  rw [build_voxel_chunk, ← List.append_nil ((vs.map voxelBytes).flatten),
    parse_voxels_roundtrip vs [] hlen hwf]

theorem parse_chunk_rgba_chunk (cs : List Color) (rest : Bytes)
    (hcontent : ((cs.map colorBytes).flatten).length < 4294967296) :
    parse_chunk (write_leaf_chunk idRGBA ((cs.map colorBytes).flatten) ++ rest) =
      .ok (rest, .palette cs) := by
  rw [parse_chunk_write_leaf idRGBA _ rest (by rfl) (by rfl) hcontent]
  congr 1
  rw [show build_leaf_chunk idRGBA ((cs.map colorBytes).flatten) =
      build_palette_chunk ((cs.map colorBytes).flatten) from by
    rw [build_leaf_chunk, if_neg (by decide), if_neg (by decide), if_pos rfl]]
  rw [build_palette_chunk, extract_palette_roundtrip]

theorem parse_chunk_scene_node (n : SceneNode) (idx : Nat) (rest : Bytes)
    (hwf : WFNode n) (hidx : idx < 4294967296)
    (hcontent : (write_scene_node n idx).length < 4294967296 + 12) :
    parse_chunk (write_scene_node n idx ++ rest) = .ok (rest, chunkOfNode n idx) := by
  cases n with
  | transform a frames child layer_id =>
    obtain ⟨ha, hfl, hf, hc, hl⟩ := hwf
    have hunfold : write_scene_node (.transform a frames child layer_id) idx =
        write_leaf_chunk idnTRN (leBytes32 idx ++ write_dict a ++ leBytes32 child ++
          leBytes32 4294967295 ++ leBytes32 layer_id ++ leBytes32 frames.length ++
          (frames.map fun fr => write_dict fr.attributes).flatten) := rfl
    rw [hunfold] at hcontent
    have hcl : (leBytes32 idx ++ write_dict a ++ leBytes32 child ++
        leBytes32 4294967295 ++ leBytes32 layer_id ++ leBytes32 frames.length ++
        (frames.map fun fr => write_dict fr.attributes).flatten).length < 4294967296 := by
      simp only [write_leaf_chunk, write_chunk, List.length_append,
        length_leBytes32, idnTRN, idnGRP, idnSHP, List.length_cons,
        List.length_nil] at hcontent
      simp only [List.length_append, length_leBytes32]
      omega
    rw [hunfold,
      parse_chunk_write_leaf idnTRN _ rest (by rfl) (by rfl) hcl]
    congr 1
    rw [show ∀ c, build_leaf_chunk idnTRN c = build_scene_transform_chunk c from
      fun c => by rw [build_leaf_chunk]; rw [if_neg (by decide), if_neg (by decide),
        if_neg (by decide), if_neg (by decide), if_pos rfl]]
    rw [build_scene_transform_chunk,
      parse_scene_transform_content idx a frames child layer_id hidx ha hfl hf hc hl]
    rfl
  | group a children =>
    obtain ⟨ha, hcl2, hc⟩ := hwf
    have hunfold : write_scene_node (.group a children) idx =
        write_leaf_chunk idnGRP (leBytes32 idx ++ write_dict a ++
          leBytes32 children.length ++ (children.map leBytes32).flatten) := rfl
    rw [hunfold] at hcontent
    have hcl : (leBytes32 idx ++ write_dict a ++ leBytes32 children.length ++
        (children.map leBytes32).flatten).length < 4294967296 := by
      simp only [write_leaf_chunk, write_chunk, List.length_append,
        length_leBytes32, idnTRN, idnGRP, idnSHP, List.length_cons,
        List.length_nil] at hcontent
      simp only [List.length_append, length_leBytes32]
      omega
    rw [hunfold,
      parse_chunk_write_leaf idnGRP _ rest (by rfl) (by rfl) hcl]
    congr 1
    rw [show ∀ c, build_leaf_chunk idnGRP c = build_scene_group_chunk c from
      fun c => by rw [build_leaf_chunk]; rw [if_neg (by decide), if_neg (by decide),
        if_neg (by decide), if_neg (by decide), if_neg (by decide), if_pos rfl]]
    rw [build_scene_group_chunk,
      parse_scene_group_content idx a children hidx ha hcl2 hc]
    rfl
  | shape a models =>
    obtain ⟨ha, hml, hm⟩ := hwf
    have hunfold : write_scene_node (.shape a models) idx =
        write_leaf_chunk idnSHP (leBytes32 idx ++ write_dict a ++
          leBytes32 models.length ++
          (models.map fun m => leBytes32 m.model_id ++ write_dict m.attributes).flatten) := rfl
    rw [hunfold] at hcontent
    have hcl : (leBytes32 idx ++ write_dict a ++ leBytes32 models.length ++
        (models.map fun m => leBytes32 m.model_id ++ write_dict m.attributes).flatten).length
        < 4294967296 := by
      simp only [write_leaf_chunk, write_chunk, List.length_append,
        length_leBytes32, idnTRN, idnGRP, idnSHP, List.length_cons,
        List.length_nil] at hcontent
      simp only [List.length_append, length_leBytes32]
      omega
    rw [hunfold,
      parse_chunk_write_leaf idnSHP _ rest (by rfl) (by rfl) hcl]
    congr 1
    rw [show ∀ c, build_leaf_chunk idnSHP c = build_scene_shape_chunk c from
      fun c => by rw [build_leaf_chunk]; rw [if_neg (by decide), if_neg (by decide),
        if_neg (by decide), if_neg (by decide), if_neg (by decide), if_neg (by decide),
        if_pos rfl]]
    rw [build_scene_shape_chunk,
      parse_scene_shape_content idx a models hidx ha hml hm]
    rfl

theorem flatten_part_le (xs : List Bytes) (x : Bytes) (h : x ∈ xs) :
    x.length ≤ (xs.flatten).length := by
  induction xs with
  | nil => simp at h
  | cons y tl ih =>
    rw [List.flatten_cons, List.length_append]
    rcases List.mem_cons.mp h with h' | h'
    · subst h'; omega
    · have := ih h'; omega

theorem many0F_chunks : ∀ (ps : List (Bytes × Chunk)) (fuel : Nat),
    (∀ x ∈ ps, 12 ≤ x.1.length ∧ ∀ r : Bytes, parse_chunk (x.1 ++ r) = .ok (r, x.2)) →
    ((ps.map Prod.fst).flatten).length < fuel →
    many0F parse_chunk fuel ((ps.map Prod.fst).flatten) = .ok ([], ps.map Prod.snd) := by
  intro ps
  induction ps with
  | nil =>
    intro fuel h hf
    match fuel, hf with
    | f + 1, _ =>
      rw [show ((List.map Prod.fst [] : List Bytes).flatten) = [] from rfl]
      rw [many0F_succ_err parse_chunk f [] (by rfl)]
      rfl
  | cons x tl ih =>
    intro fuel h hf
    rw [List.map_cons, List.flatten_cons] at hf ⊢
    match fuel, hf with
    | f + 1, _ =>
      have hx := h x (by simp)
      have hok := hx.2 ((tl.map Prod.fst).flatten)
      rw [many0F_succ_ok parse_chunk f _ _ _ hok]
      have hlt : ((tl.map Prod.fst).flatten).length <
          (x.1 ++ (tl.map Prod.fst).flatten).length := by
        rw [List.length_append]
        have := hx.1
        omega
      rw [if_pos hlt]
      rw [ih f (fun y hy => h y (by simp [hy])) (by
        rw [List.length_append] at hf
        omega)]
      rfl

end DotVox

namespace DotVox

theorem fold_scene_chunks (xs : List (Nat × SceneNode)) : ∀ st : MapState,
    List.foldl map_step st (xs.map fun p => chunkOfNode p.2 p.1) =
      { st with scene := st.scene ++ xs.map Prod.snd } := by
  induction xs with
  | nil => intro st; simp
  | cons p tl ih =>
    intro st
    rw [List.map_cons, List.foldl_cons]
    cases hn : p.2 with
    | transform a frames child layer_id =>
      rw [show map_step st (chunkOfNode (SceneNode.transform a frames child layer_id) p.1) =
        { st with scene := st.scene ++ [SceneNode.transform a frames child layer_id] } from by
          simp only [chunkOfNode, map_step]
          rw [frames_map_eta]]
      rw [ih]
      simp [hn]
    | group a children =>
      rw [show map_step st (chunkOfNode (SceneNode.group a children) p.1) =
        { st with scene := st.scene ++ [SceneNode.group a children] } from by
          simp [chunkOfNode, map_step]]
      rw [ih]
      simp [hn]
    | shape a models =>
      rw [show map_step st (chunkOfNode (SceneNode.shape a models) p.1) =
        { st with scene := st.scene ++ [SceneNode.shape a models] } from by
          simp [chunkOfNode, map_step]]
      rw [ih]
      simp [hn]

theorem fold_model_chunks (ms : List Model) : ∀ st : MapState,
    List.foldl map_step st
      ((ms.map fun m => [Chunk.size m.size, Chunk.voxels m.voxels]).flatten) =
      { st with models := st.models ++ ms,
                size_holder := ms.foldl (fun _ m => some m.size) st.size_holder } := by
  induction ms with
  | nil => intro st; simp
  | cons m tl ih =>
    intro st
    rw [List.map_cons, List.flatten_cons]
    rw [show ([Chunk.size m.size, Chunk.voxels m.voxels] ++
      (tl.map fun m => [Chunk.size m.size, Chunk.voxels m.voxels]).flatten).foldl
        map_step st =
      (tl.map fun m => [Chunk.size m.size, Chunk.voxels m.voxels]).flatten.foldl
        map_step (map_step (map_step st (Chunk.size m.size)) (Chunk.voxels m.voxels))
      from by rw [List.foldl_append]; rfl]
    rw [show map_step (map_step st (Chunk.size m.size)) (Chunk.voxels m.voxels) =
      { st with models := st.models ++ [m], size_holder := some m.size } from by
        simp [map_step]]
    rw [ih]
    simp

theorem fold_palette_chunk (st : MapState) (cs : List Color) :
    List.foldl map_step st [Chunk.palette cs] = { st with palette_holder := cs } := by
  simp [map_step]

end DotVox

namespace DotVox

theorem parse_chunk_main (children rest : Bytes) (chunks : List Chunk)
    (hlen : children.length < 4294967296) (hne : children.length ≠ 0)
    (hmany : many0F parse_chunk (children.length + 1) children = .ok ([], chunks)) :
    parse_chunk (write_main_chunk children.length ++ (children ++ rest)) =
      .ok (rest, .main chunks) := by
  rw [write_main_chunk, write_chunk, List.append_nil]
  rw [List.append_assoc, List.append_assoc]
  set i := idMAIN ++ (leBytes32 ([] : Bytes).length ++
    (leBytes32 children.length ++ (children ++ rest))) with hi
  have hd4 : i.drop 4 = leBytes32 ([] : Bytes).length ++
      (leBytes32 children.length ++ (children ++ rest)) := by
    rw [hi, List.drop_left' (by rfl)]
  have hcs : headerContentSize i = 0 := by
    rw [headerContentSize, hd4, show ([] : Bytes).length = 0 from rfl,
      leVal_leBytes32 _ _ (by omega)]
  have hd8 : i.drop 8 = leBytes32 children.length ++ (children ++ rest) := by
    rw [hi, show idMAIN ++ (leBytes32 ([] : Bytes).length ++
      (leBytes32 children.length ++ (children ++ rest)))
      = (idMAIN ++ leBytes32 ([] : Bytes).length) ++
        (leBytes32 children.length ++ (children ++ rest)) from by
        rw [List.append_assoc]]
    rw [List.drop_left' (by rfl)]
  have hks : headerChildrenSize i = children.length := by
    rw [headerChildrenSize, hd8, leVal_leBytes32 _ _ hlen]
  have hd12 : i.drop 12 = children ++ rest := by
    rw [hi, show idMAIN ++ (leBytes32 ([] : Bytes).length ++
      (leBytes32 children.length ++ (children ++ rest)))
      = ((idMAIN ++ leBytes32 ([] : Bytes).length) ++ leBytes32 children.length) ++
        (children ++ rest) from by
        rw [List.append_assoc, List.append_assoc]]
    rw [List.drop_left' (by rfl)]
  have ht4 : i.take 4 = idMAIN := by
    rw [hi, List.take_left' (by rfl)]
  have hlength : i.length = 12 + children.length + rest.length := by
    rw [hi]
    simp [leBytes32, idMAIN]
    omega
  have hdropfin : i.drop (12 + 0 + children.length) = rest := by
    rw [Nat.add_zero, ← List.drop_drop, hd12, List.drop_left]
  have htake : (i.drop (12 + 0)).take children.length = children := by
    rw [Nat.add_zero, hd12, List.take_left]
  rw [parse_chunk_eq, ht4, hcs, hks]
  rw [if_pos (by omega), if_pos (by rfl), if_pos (by omega), if_neg hne,
    hdropfin, htake]
  rw [build_parent_chunk]
  rw [many0F_congr (fun j => parse_chunkF i.length j) parse_chunk _ children
    (fun j hj => parse_chunkF_canonical j i.length (by omega))]
  rw [hmany]
  rw [if_pos rfl]

end DotVox

namespace DotVox

/-- The byte/value pairs a written model contributes: one SIZE and one XYZI
leaf chunk. -/
def modelChunkPair (m : Model) : List (Bytes × Chunk) :=
  [(write_leaf_chunk idSIZE
      (leBytes32 m.size.x ++ leBytes32 m.size.y ++ leBytes32 m.size.z),
    Chunk.size m.size),
   (write_leaf_chunk idXYZI
      (leBytes32 m.voxels.length ++ (m.voxels.map voxelBytes).flatten),
    Chunk.voxels m.voxels)]

/-- The byte/value pairs of every child chunk `write_vox` emits for a data
value with at most one model (no PACK chunk). -/
def filePs (D : DotVoxData) : List (Bytes × Chunk) :=
  (D.models.map modelChunkPair).flatten ++
  (D.scenes.enum.map fun p => (write_scene_node p.2 p.1, chunkOfNode p.2 p.1)) ++
  [(write_palette_chunk D, Chunk.palette D.palette)]

theorem model_pairs_bytes (ms : List Model) :
    (((ms.map modelChunkPair).flatten).map Prod.fst).flatten =
      (ms.map write_model).flatten := by
  induction ms with
  | nil => rfl
  | cons m tl ih =>
    simp only [List.map_cons, List.flatten_cons, List.map_append, List.flatten_append, ih]
    rw [show ((modelChunkPair m).map Prod.fst).flatten = write_model m from by
      simp only [modelChunkPair, List.map_cons, List.map_nil, List.flatten_cons,
        List.flatten_nil, List.append_nil, write_model]
      rfl]

theorem model_pairs_vals (ms : List Model) :
    ((ms.map modelChunkPair).flatten).map Prod.snd =
      (ms.map fun m => [Chunk.size m.size, Chunk.voxels m.voxels]).flatten := by
  induction ms with
  | nil => rfl
  | cons m tl ih =>
    simp only [List.map_cons, List.flatten_cons, List.map_append, ih]
    rfl

theorem filePs_bytes (D : DotVoxData) (h1 : ¬ D.models.length > 1) :
    ((filePs D).map Prod.fst).flatten =
      write_models D ++ write_scene_graph D ++ write_palette_chunk D := by
  rw [filePs, List.map_append, List.map_append, List.flatten_append,
    List.flatten_append, model_pairs_bytes]
  rw [write_models, if_neg h1, List.nil_append]
  congr 1
  congr 1
  · rw [List.map_map, write_scene_graph]
    rfl
  · simp

theorem filePs_vals (D : DotVoxData) :
    (filePs D).map Prod.snd =
      ((D.models.map fun m => [Chunk.size m.size, Chunk.voxels m.voxels]).flatten ++
        (D.scenes.enum.map fun p => chunkOfNode p.2 p.1)) ++
        [Chunk.palette D.palette] := by
  rw [filePs, List.map_append, List.map_append, model_pairs_vals, List.map_map]
  rfl

theorem colorBytes_flatten_len (cs : List Color) :
    ((cs.map colorBytes).flatten).length = 4 * cs.length := by
  induction cs with
  | nil => rfl
  | cons c tl ih => simp [colorBytes, ih]; omega

theorem write_scene_node_ge (n : SceneNode) (idx : Nat) :
    12 ≤ (write_scene_node n idx).length := by
  cases n <;>
    (simp [write_scene_node, write_leaf_chunk, write_chunk, length_leBytes32,
      idnTRN, idnGRP, idnSHP]
     omega)

end DotVox

namespace DotVox

theorem write_leaf_chunk_len (id c : Bytes) (h : id.length = 4) :
    (write_leaf_chunk id c).length = 12 + c.length := by
  simp [write_leaf_chunk, write_chunk, h, length_leBytes32]
  omega

theorem filePs_parse_ok (D : DotVoxData)
    (hmwf : ∀ m ∈ D.models, m.size.x < 4294967296 ∧ m.size.y < 4294967296 ∧
      m.size.z < 4294967296 ∧ m.voxels.length < 4294967296 ∧
      ∀ v ∈ m.voxels, v.i.val ≤ 254)
    (hpal : D.palette.length < 1073741824)
    (hswf : ∀ n ∈ D.scenes, WFNode n)
    (hsl : D.scenes.length < 4294967296)
    (hbound : ∀ x ∈ filePs D, x.1.length < 4294967296 + 12) :
    ∀ x ∈ filePs D, 12 ≤ x.1.length ∧
      ∀ r : Bytes, parse_chunk (x.1 ++ r) = .ok (r, x.2) := by
  intro x hx
  have hb := hbound x hx
  rcases List.mem_append.mp hx with hx1 | hx2
  · rcases List.mem_append.mp hx1 with hxm | hxs
    · obtain ⟨l, hl, hxl⟩ := List.mem_flatten.mp hxm
      obtain ⟨m, hm, hlm⟩ := List.mem_map.mp hl
      obtain ⟨hx1w, hy1w, hz1w, hvl, hvw⟩ := hmwf m hm
      subst hlm
      rcases List.mem_cons.mp hxl with hsz | hxl2
      · subst hsz
        refine ⟨by rw [write_leaf_chunk_len _ _ (by rfl)]; omega, fun r => ?_⟩
        exact parse_chunk_size_chunk m.size r hx1w hy1w hz1w
      · have heq := List.mem_singleton.mp hxl2
        subst heq
        rw [write_leaf_chunk_len _ _ (by rfl)] at hb
        refine ⟨by rw [write_leaf_chunk_len _ _ (by rfl)]; omega, fun r => ?_⟩
        exact parse_chunk_xyzi_chunk m.voxels r hvl (by omega) hvw
    · obtain ⟨p, hp, hpx⟩ := List.mem_map.mp hxs
      subst hpx
      have hmem := List.mem_enumFrom hp
      have hidx : p.1 < 4294967296 := by
        have := hmem.2.1
        omega
      have hnode : p.2 ∈ D.scenes := by
        rw [hmem.2.2]
        exact List.getElem_mem _
      refine ⟨write_scene_node_ge p.2 p.1, fun r => ?_⟩
      exact parse_chunk_scene_node p.2 p.1 r (hswf p.2 hnode) hidx hb
  · have heq := List.mem_singleton.mp hx2
    subst heq
    have hcb : ((D.palette.map colorBytes).flatten).length < 4294967296 := by
      rw [colorBytes_flatten_len]
      omega
    refine ⟨by rw [show write_palette_chunk D =
        write_leaf_chunk idRGBA ((D.palette.map colorBytes).flatten) from rfl,
        write_leaf_chunk_len _ _ (by rfl)]; omega, fun r => ?_⟩
    rw [show write_palette_chunk D =
      write_leaf_chunk idRGBA ((D.palette.map colorBytes).flatten) from rfl]
    exact parse_chunk_rgba_chunk D.palette r hcb

theorem map_chunk_to_data_main (v : Nat) (cs : List Chunk) :
    map_chunk_to_data v (.main cs) =
      { version := v,
        models := (cs.foldl map_step
          { size_holder := none, models := [], palette_holder := DEFAULT_PALETTE,
            materials := [], scene := [], layers := [] }).models,
        palette := (cs.foldl map_step
          { size_holder := none, models := [], palette_holder := DEFAULT_PALETTE,
            materials := [], scene := [], layers := [] }).palette_holder,
        materials := (cs.foldl map_step
          { size_holder := none, models := [], palette_holder := DEFAULT_PALETTE,
            materials := [], scene := [], layers := [] }).materials,
        scenes := (cs.foldl map_step
          { size_holder := none, models := [], palette_holder := DEFAULT_PALETTE,
            materials := [], scene := [], layers := [] }).scene,
        layers := (cs.foldl map_step
          { size_holder := none, models := [], palette_holder := DEFAULT_PALETTE,
            materials := [], scene := [], layers := [] }).layers } := rfl

end DotVox

namespace DotVox

/-! ## C1: the encode/decode round trip -/

/-- C1 (amended): the round trip holds on the writer's actual domain — for a
data value with at most one model (so no PACK chunk is emitted), no layers,
version and every on-disk numeric field below `2^32`, voxel indices at most
254, fewer than `2^30` palette entries, well-formed scene nodes, and a
serialized children buffer under `2^32` bytes, `load_bytes (write_vox D)`
returns exactly `D` with `materials` emptied (the writer never emits MATL
chunks).  The unamended claim — preservation of two or more models and of
layers — is refuted by `C1_counterexample`. -/
theorem C1_roundtrip_amended (D : DotVoxData)
    (hver : D.version < 4294967296)
    (hm1 : D.models.length ≤ 1)
    (hmwf : ∀ m ∈ D.models, m.size.x < 4294967296 ∧ m.size.y < 4294967296 ∧
      m.size.z < 4294967296 ∧ m.voxels.length < 4294967296 ∧
      ∀ v ∈ m.voxels, v.i.val ≤ 254)
    (hpal : D.palette.length < 1073741824)
    (hswf : ∀ n ∈ D.scenes, WFNode n)
    (hsl : D.scenes.length < 4294967296)
    (hlay : D.layers = [])
    (hsz : (write_models D ++ write_scene_graph D ++ write_palette_chunk D).length
      < 4294967296) :
    load_bytes (write_vox D) = .ok { D with materials := [] } := by
  have hng : ¬ D.models.length > 1 := by omega
  have hA := filePs_bytes D hng
  set children := write_models D ++ write_scene_graph D ++ write_palette_chunk D
    with hch
  have hbound : ∀ x ∈ filePs D, x.1.length < 4294967296 + 12 := by
    intro x hx
    have hle : x.1.length ≤ children.length := by
      rw [← hA]
      exact flatten_part_le _ _ (List.mem_map_of_mem Prod.fst hx)
    omega
  have hok := filePs_parse_ok D hmwf hpal hswf hsl hbound
  have hmany : many0F parse_chunk (children.length + 1) children =
      .ok ([], (filePs D).map Prod.snd) := by
    rw [← hA]
    exact many0F_chunks (filePs D) _ hok (Nat.lt_succ_self _)
  have hne : children.length ≠ 0 := by
    have h12 : (write_palette_chunk D).length =
        12 + ((D.palette.map colorBytes).flatten).length :=
      write_leaf_chunk_len _ _ (by rfl)
    rw [hch]
    simp only [List.length_append]
    omega
  have hmain := parse_chunk_main children [] ((filePs D).map Prod.snd)
    (by omega) hne hmany
  rw [List.append_nil] at hmain
  have hvox : write_vox D = MAGIC_NUMBER ++
      (leBytes32 D.version ++ (write_main_chunk children.length ++ children)) := by
    rw [hch]
    simp [write_vox, write_header, List.append_assoc]
  have hparse : parse_vox_file (MAGIC_NUMBER ++
      (leBytes32 D.version ++ (write_main_chunk children.length ++ children))) =
      .ok ([], map_chunk_to_data D.version (.main ((filePs D).map Prod.snd))) := by
    rw [parse_vox_file]
    rw [pbind_ok (show takeP 4 (MAGIC_NUMBER ++
      (leBytes32 D.version ++ (write_main_chunk children.length ++ children))) =
        .ok (leBytes32 D.version ++ (write_main_chunk children.length ++ children),
          MAGIC_NUMBER) from takeP_exact MAGIC_NUMBER _)]
    rw [if_pos rfl]
    rw [pbind_ok (le_u32_leBytes32 D.version _ hver)]
    rw [pbind_ok hmain]
  have hfold : map_chunk_to_data D.version (.main ((filePs D).map Prod.snd)) =
      { D with materials := [] } := by
    rw [filePs_vals, map_chunk_to_data_main]
    rw [List.foldl_append, List.foldl_append]
    rw [fold_model_chunks, fold_scene_chunks, fold_palette_chunk]
    simp [List.enum_map_snd, hlay]
  rw [load_bytes, hvox, hparse, hfold]

/-- A one-voxel, unit-size model. -/
def c1model : Model :=
  { size := { x := 1, y := 1, z := 1 }, voxels := [{ x := 0, y := 0, z := 0, i := 0 }] }

/-- A decodable file with two models and one layer: two SIZE/XYZI pairs (44
bytes each) and a 24-byte LAYR chunk (id 0, empty dict, reserved word)
inside MAIN. -/
def c1bytes : Bytes :=
  MAGIC_NUMBER ++ leBytes32 150 ++ write_main_chunk 112 ++
    (write_model c1model ++ write_model c1model ++
      write_leaf_chunk idLAYR (List.replicate 12 0))

/-- What `c1bytes` decodes to: two models and one layer. -/
def c1data : DotVoxData :=
  { version := 150, models := [c1model, c1model], palette := DEFAULT_PALETTE,
    materials := [], scenes := [], layers := [{ attributes := [] }] }

/-- What re-decoding `write_vox c1data` actually yields: `write_pack_chunk`
declares the models' 88 encoded bytes as the PACK chunk's children size, so
the re-decoder consumes both SIZE/XYZI pairs as children of an `Unknown`
PACK chunk and `map_chunk_to_data` sees no model chunks; LAYR chunks are
never written at all. -/
def c1redata : DotVoxData :=
  { version := 150, models := [], palette := DEFAULT_PALETTE,
    materials := [], scenes := [], layers := [] }

set_option maxRecDepth 100000 in
/-- C1 counterexample: a decode-produced value with two models and one layer
(and no materials, so the materials exclusion cannot excuse the loss) does
not survive the round trip — re-decoding `write_vox` of it loses every model
and every layer. -/
theorem C1_counterexample :
    load_bytes c1bytes = .ok c1data ∧
    c1data.models.length = 2 ∧ c1data.layers.length = 1 ∧ c1data.materials = [] ∧
    load_bytes (write_vox c1data) = .ok c1redata ∧
    c1redata.models.length = 0 ∧ c1redata.layers.length = 0 :=
  ⟨by rfl, by rfl, by rfl, by rfl, by rfl, by rfl, by rfl⟩

/-- A small data value inside the amended round-trip's domain: one model, a
one-entry palette, one transform scene node, no layers. -/
def c1small : DotVoxData :=
  { version := 150, models := [c1model],
    palette := [{ r := 255, g := 0, b := 0, a := 255 }], materials := [],
    scenes := [.transform [] [] 0 0], layers := [] }

/-- Witness for `C1_roundtrip_amended` at the concrete value `c1small`. -/
theorem C1_witness :
    load_bytes (write_vox c1small) = .ok { c1small with materials := [] } :=
  C1_roundtrip_amended c1small (by decide) (by decide)
    (by intro m hm; rw [List.mem_singleton.mp hm]; exact
      ⟨by decide, by decide, by decide, by decide, by decide⟩)
    (by decide)
    (by intro n hn; rw [List.mem_singleton.mp hn]; exact
      ⟨⟨by decide, by decide, List.forall_mem_nil _⟩, by decide,
        List.forall_mem_nil _, by decide, by decide⟩)
    (by decide) (by rfl) (by decide)

end DotVox
